import Mathlib

/-! The streaming state machine of gr-uhd `usrp_source_impl`.

A shallow embedding of `gr-uhd/lib/usrp_source_impl.cc` (the build with
`GR_UHD_USE_STREAM_API`, the one that has `_rx_stream`).

* The UHD driver (`_dev`, `_rx_stream`) is an external collaborator. It is a
  record of functions over a device state `σ` and a time type `τ`
  (`::uhd::time_spec_t`).
* The block is a record of the member variables the streaming code reads or
  writes, plus observation logs: the tags handed to `add_item_tag`, the
  stream commands handed to the device, the receives performed, and the
  number of times `work` re-entered itself.
* `flush` loops and `work` recurses, so both take a fuel argument; running out
  of fuel is the fault `out_of_fuel`. Dereferencing an unset `_rx_stream` is
  the fault `null_rx_stream`.
-/

namespace UsrpSource

/-! ## Values -/

/-- A C `double`, kept as its IEEE-754 bit pattern. The streaming code only
moves doubles around, it never computes with them. -/
structure double where
  bits : Nat
deriving DecidableEq, Repr

/-- The literal `0.0`. -/
def double_zero : double := ⟨0⟩

/-- The literal `0.1` of `static const double reasonable_delay = 0.1`. -/
def reasonable_delay : double := ⟨0x3FB999999999999A⟩

/-- A `std::complex<float>` sample. -/
structure gr_complex where
  re : Nat
  im : Nat
deriving DecidableEq, Repr

/-- The value-initialised sample of `std::vector<std::complex<float> >(nsamps)`. -/
def gr_complex_zero : gr_complex := ⟨0, 0⟩

/-- The error codes of `::uhd::rx_metadata_t` that `work` tells apart; every
other code takes the `default:` branch. -/
inductive error_code_t where
  | ERROR_CODE_NONE
  | ERROR_CODE_TIMEOUT
  | ERROR_CODE_OVERFLOW
  | ERROR_CODE_OTHER
deriving DecidableEq, Repr

open error_code_t

/-- The fields of `::uhd::rx_metadata_t` read by the block. -/
structure rx_metadata_t (τ : Type) where
  error_code : error_code_t
  time_spec : τ
  end_of_burst : Bool
deriving DecidableEq, Repr

/-- The stream modes used by the block. -/
inductive stream_mode_t where
  | STREAM_MODE_START_CONTINUOUS
  | STREAM_MODE_STOP_CONTINUOUS
  | STREAM_MODE_NUM_SAMPS_AND_DONE
deriving DecidableEq, Repr

open stream_mode_t

/-- The record `::uhd::stream_cmd_t`. -/
structure stream_cmd_t (τ : Type) where
  stream_mode : stream_mode_t
  num_samps : Nat
  stream_now : Bool
  time_spec : τ
deriving DecidableEq, Repr

/-- The arguments of one `recv` call: the buffer size in samples, the timeout
in milliseconds (`0.0`, `0.1` and `1.0` seconds are 0, 100 and 1000) and the
one-packet flag. -/
structure recv_args where
  nsamps_per_buff : Nat
  timeout_ms : Nat
  one_packet : Bool
deriving DecidableEq, Repr

/-- What one `recv` call gives back: the sample count, the metadata and the
samples written, `payload chan k` being sample `k` of channel `chan`. -/
structure recv_result (τ : Type) where
  num_samps : Nat
  md : rx_metadata_t τ
  payload : Nat → Nat → gr_complex

/-- The UHD driver, external to the block. -/
structure multi_usrp (σ τ : Type) where
  /-- The call `recv` of the rx streamer. -/
  recv : σ → recv_args → recv_result τ × σ
  /-- The call `_dev->issue_stream_cmd(cmd, chan)`. -/
  issue_stream_cmd : σ → stream_cmd_t τ → Nat → σ
  /-- The call `_dev->get_rx_stream(_stream_args)`. -/
  get_rx_stream : σ → σ
  /-- The call `_rx_stream->get_max_num_samps()`. -/
  get_max_num_samps : σ → Nat
  /-- The call `get_time_now()`. -/
  get_time_now : σ → τ
  /-- The constructor `::uhd::time_spec_t(double)`. -/
  time_spec_t : double → τ
  /-- The sum of two `time_spec_t`. -/
  time_add : τ → τ → τ
  /-- The accessor `get_full_secs()`. -/
  get_full_secs : τ → Nat
  /-- The accessor `get_frac_secs()`. -/
  get_frac_secs : τ → double
  /-- The value `::uhd::convert::get_bytes_per_item(_stream_args.cpu_format)`. -/
  bytes_per_item : Nat

/-- The keys of the stream tags. -/
inductive tag_key where
  | TIME_KEY
  | RATE_KEY
  | FREQ_KEY
  | EOB_KEY
deriving DecidableEq, Repr

open tag_key

/-- The tag values built by `work`. -/
inductive pmt_t where
  | tuple_uint64_double (full_secs : Nat) (frac_secs : double)
  | from_double (d : double)
  | PMT_T
deriving DecidableEq, Repr

/-- One call `add_item_tag(which_output, abs_offset, key, value, srcid)`. -/
structure tag_t where
  which_output : Nat
  abs_offset : Nat
  key : tag_key
  value : pmt_t
  srcid : Nat
deriving DecidableEq, Repr

/-- One entry of the receive log: the arguments, the count and the metadata. -/
structure rx_event (τ : Type) where
  args : recv_args
  num_samps : Nat
  md : rx_metadata_t τ
deriving DecidableEq, Repr

/-- The faults of the model. -/
inductive fault where
  | out_of_fuel
  | null_rx_stream
deriving DecidableEq, Repr

/-- The block `usrp_source_impl`: the device state, the member variables and
the observation logs (`tags`, `cmds`, `rx_log`, `reentries`). -/
structure usrp_source_impl (σ τ : Type) where
  dev : σ
  _nchan : Nat
  channels : List Nat
  _rx_stream : Bool
  _samps_per_packet : Nat
  _tag_now : Bool
  _start_time : τ
  _start_time_set : Bool
  _stream_now : Bool
  _samp_rate : double
  _center_freq : double
  _metadata : rx_metadata_t τ
  _id : Nat
  tags : List tag_t
  cmds : List (stream_cmd_t τ × Nat)
  rx_log : List (rx_event τ)
  reentries : Nat

variable {σ τ : Type}

/-! ## Operations -/

/-- The conversion of a `size_t` to the `int` that `work` returns. -/
def to_int (n : Nat) : Int :=
  if n % 2 ^ 32 < 2 ^ 31 then ((n % 2 ^ 32 : Nat) : Int) else ((n % 2 ^ 32 : Nat) : Int) - 2 ^ 32

/-- The sum `nitems_written(i) + num_samps - 1` in unsigned 64-bit arithmetic. -/
def eob_offset (written num_samps : Nat) : Nat :=
  (written + num_samps + (2 ^ 64 - 1)) % 2 ^ 64

/-- The setter `set_start_time`. -/
def set_start_time (time : τ) (s : usrp_source_impl σ τ) : usrp_source_impl σ τ :=
  { s with _start_time := time, _start_time_set := true, _stream_now := false }

/-- The member `issue_stream_cmd`: the command goes to every channel of
`_stream_args.channels`, in order. -/
def issue_stream_cmd (drv : multi_usrp σ τ) (cmd : stream_cmd_t τ)
    (s : usrp_source_impl σ τ) : usrp_source_impl σ τ :=
  s.channels.foldl
    (fun acc chan =>
      { acc with dev := drv.issue_stream_cmd acc.dev cmd chan, cmds := acc.cmds ++ [(cmd, chan)] })
    s

/-- The constructor `stream_cmd_t(stream_mode)`: no samples, stream now, time 0. -/
def stream_cmd_t.make (drv : multi_usrp σ τ) (mode : stream_mode_t) : stream_cmd_t τ :=
  { stream_mode := mode, num_samps := 0, stream_now := true,
    time_spec := drv.time_spec_t double_zero }

/-- The member `start`. -/
def start (drv : multi_usrp σ τ) (s : usrp_source_impl σ τ) : Bool × usrp_source_impl σ τ :=
  let s1 :=
    if !s._rx_stream then
      let d := drv.get_rx_stream s.dev
      { s with dev := d, _rx_stream := true, _samps_per_packet := drv.get_max_num_samps d }
    else s
  let stream_cmd := stream_cmd_t.make drv STREAM_MODE_START_CONTINUOUS
  let stream_cmd := { stream_cmd with stream_now := s1._stream_now }
  let (stream_cmd, s2) :=
    if s1._start_time_set then
      ({ stream_cmd with time_spec := s1._start_time }, { s1 with _start_time_set := false })
    else
      ({ stream_cmd with
          time_spec := drv.time_add (drv.get_time_now s1.dev) (drv.time_spec_t reasonable_delay) },
        s1)
  let s3 := issue_stream_cmd drv stream_cmd s2
  (true, { s3 with _tag_now := true })

/-- One `_rx_stream->recv(buffs, nsamps, _metadata, timeout, one_packet)`: the
device advances, `_metadata` is overwritten and the receive is logged. -/
def rx_recv (drv : multi_usrp σ τ) (a : recv_args) (s : usrp_source_impl σ τ) :
    recv_result τ × usrp_source_impl σ τ :=
  let r := drv.recv s.dev a
  (r.1, { s with dev := r.2, _metadata := r.1.md,
                 rx_log := { args := a, num_samps := r.1.num_samps, md := r.1.md } :: s.rx_log })

/-- The arguments of the receive of `flush`: `nbytes/bpi` samples with
`nbytes = 4096`, timeout `0.0`, not one-packet. -/
def flush_args (drv : multi_usrp σ τ) : recv_args :=
  { nsamps_per_buff := 4096 / drv.bytes_per_item, timeout_ms := 0, one_packet := false }

/-- The member `flush`: receive with a zero timeout until a receive reports
`ERROR_CODE_TIMEOUT`. One unit of fuel per turn of the `while(true)` loop. -/
def flush (drv : multi_usrp σ τ) : Nat → usrp_source_impl σ τ → Except fault (usrp_source_impl σ τ)
  | 0, _ => .error fault.out_of_fuel
  | fuel + 1, s =>
    if !s._rx_stream then .error fault.null_rx_stream
    else
      let s1 := (rx_recv drv (flush_args drv) s).2
      if s1._metadata.error_code = ERROR_CODE_TIMEOUT then .ok s1
      else flush drv fuel s1

/-- The member `stop`. -/
def stop (drv : multi_usrp σ τ) (fuel : Nat) (s : usrp_source_impl σ τ) :
    Except fault (Bool × usrp_source_impl σ τ) :=
  let s1 := issue_stream_cmd drv (stream_cmd_t.make drv STREAM_MODE_STOP_CONTINUOUS) s
  match flush drv fuel s1 with
  | .error e => .error e
  | .ok s2 => .ok (true, s2)

/-- The buffer of channel `chan` after the receive wrote `actual` samples into
`nsamps` value-initialised slots and `resize(actual)` was applied. -/
def resized_buffer (r : recv_result τ) (nsamps chan : Nat) : List gr_complex :=
  (List.range r.num_samps).map
    (fun k => if k < nsamps then r.payload chan k else gr_complex_zero)

/-- The member `finite_acquisition_v`. -/
def finite_acquisition_v (drv : multi_usrp σ τ) (fuel nsamps : Nat) (s : usrp_source_impl σ τ) :
    Except fault (List (List gr_complex) × usrp_source_impl σ τ) :=
  let ensured : Except fault (usrp_source_impl σ τ) :=
    if !s._rx_stream then
      match stop drv fuel (start drv s).2 with
      | .error e => .error e
      | .ok p => .ok p.2
    else .ok s
  match ensured with
  | .error e => .error e
  | .ok s1 =>
    match flush drv fuel s1 with
    | .error e => .error e
    | .ok s2 =>
      let cmd := stream_cmd_t.make drv STREAM_MODE_NUM_SAMPS_AND_DONE
      let cmd := { cmd with num_samps := nsamps }
      let cmd := { cmd with stream_now := s2._stream_now }
      let cmd := { cmd with
        time_spec := drv.time_add (drv.get_time_now s2.dev) (drv.time_spec_t reasonable_delay) }
      let s3 := issue_stream_cmd drv cmd s2
      let r := rx_recv drv { nsamps_per_buff := nsamps, timeout_ms := 1000, one_packet := false } s3
      .ok ((List.range s._nchan).map (fun i => resized_buffer r.1 nsamps i), r.2)

/-- The TIME, RATE and FREQ tags of channel `i` at offset `off`, in the order
`work` adds them. -/
def bundle_for (drv : multi_usrp σ τ) (s : usrp_source_impl σ τ) (off i : Nat) : List tag_t :=
  [ { which_output := i, abs_offset := off, key := TIME_KEY,
      value := pmt_t.tuple_uint64_double (drv.get_full_secs s._metadata.time_spec)
                 (drv.get_frac_secs s._metadata.time_spec),
      srcid := s._id },
    { which_output := i, abs_offset := off, key := RATE_KEY,
      value := pmt_t.from_double s._samp_rate, srcid := s._id },
    { which_output := i, abs_offset := off, key := FREQ_KEY,
      value := pmt_t.from_double s._center_freq, srcid := s._id } ]

/-- The tags of the loop `for(i = 0; i < _nchan; i++)` of the
`ERROR_CODE_NONE` branch. -/
def time_rate_freq_tags (drv : multi_usrp σ τ) (s : usrp_source_impl σ τ) (off : Nat) :
    List tag_t :=
  (List.range s._nchan).flatMap (bundle_for drv s off)

/-- The tags of the loop of the `end_of_burst` branch. -/
def eob_tags (s : usrp_source_impl σ τ) (nitems_written : Nat → Nat) (num_samps : Nat) :
    List tag_t :=
  (List.range s._nchan).map
    (fun i => { which_output := i, abs_offset := eob_offset (nitems_written i) num_samps,
                key := EOB_KEY, value := pmt_t.PMT_T, srcid := s._id })

/-- The code of `work` after the `switch`: the end-of-burst tags and the
returned count. -/
def after_switch (nitems_written : Nat → Nat) (num_samps : Nat) (s : usrp_source_impl σ τ) :
    Int × usrp_source_impl σ τ :=
  if s._metadata.end_of_burst then
    (to_int num_samps,
      { s with tags := s.tags ++ eob_tags s nitems_written num_samps, _tag_now := true })
  else (to_int num_samps, s)

/-- The member `work`. `nitems_written` is the scheduler's per-port write
counter, which does not move during a call. The samples written to
`output_items` are not part of the model. One unit of fuel per entry of
`work`, the re-entry of the overflow branch included. -/
def work (drv : multi_usrp σ τ) (nitems_written : Nat → Nat) :
    Nat → Nat → usrp_source_impl σ τ → Except fault (Int × usrp_source_impl σ τ)
  | 0, _, _ => .error fault.out_of_fuel
  | fuel + 1, noutput_items, s =>
    if !s._rx_stream then .error fault.null_rx_stream
    else
      let r0 := rx_recv drv { nsamps_per_buff := noutput_items, timeout_ms := 0,
                              one_packet := false } s
      let r1 :=
        if r0.2._metadata.error_code = ERROR_CODE_TIMEOUT then
          rx_recv drv { nsamps_per_buff := noutput_items, timeout_ms := 100,
                        one_packet := true } r0.2
        else r0
      let num_samps := r1.1.num_samps
      let s1 := r1.2
      match s1._metadata.error_code with
      | ERROR_CODE_NONE =>
        let s2 :=
          if s1._tag_now then
            { s1 with _tag_now := false,
                      tags := s1.tags ++ time_rate_freq_tags drv s1 (nitems_written 0) }
          else s1
        .ok (after_switch nitems_written num_samps s2)
      | ERROR_CODE_TIMEOUT => .ok (0, s1)
      | ERROR_CODE_OVERFLOW =>
        work drv nitems_written fuel noutput_items
          { s1 with _tag_now := true, reentries := s1.reentries + 1 }
      | ERROR_CODE_OTHER => .ok (after_switch nitems_written num_samps s1)

/-! ## Auxiliary definitions for the statements -/

/-- The receives at the head of `work`: one with a zero timeout and, when it
timed out, one more for a single packet with timeout `0.1`. -/
def recv_stage (drv : multi_usrp σ τ) (noutput_items : Nat) (s : usrp_source_impl σ τ) :
    recv_result τ × usrp_source_impl σ τ :=
  let r0 := rx_recv drv { nsamps_per_buff := noutput_items, timeout_ms := 0,
                          one_packet := false } s
  if r0.2._metadata.error_code = ERROR_CODE_TIMEOUT then
    rx_recv drv { nsamps_per_buff := noutput_items, timeout_ms := 100, one_packet := true } r0.2
  else r0

/-- The state with which the overflow branch re-enters `work`. -/
def overflow_reentry (drv : multi_usrp σ τ) (noutput_items : Nat) (s : usrp_source_impl σ τ) :
    usrp_source_impl σ τ :=
  let s1 := (recv_stage drv noutput_items s).2
  { s1 with _tag_now := true, reentries := s1.reentries + 1 }

/-- The state at the `j`-th re-entry of `work` when every cycle before it was
classified overflow. -/
def reentry_state (drv : multi_usrp σ τ) (noutput_items : Nat) :
    Nat → usrp_source_impl σ τ → usrp_source_impl σ τ
  | 0, s => s
  | j + 1, s => reentry_state drv noutput_items j (overflow_reentry drv noutput_items s)

/-- The device state after `k` receives of `flush`. -/
def after_flush_recvs (drv : multi_usrp σ τ) : Nat → σ → σ
  | 0, d => d
  | k + 1, d => after_flush_recvs drv k (drv.recv d (flush_args drv)).2

/-- The device drains: from every device state, some receive of `flush`
reports a timeout. -/
def Drains (drv : multi_usrp σ τ) : Prop :=
  ∀ d : σ, ∃ k : Nat,
    (drv.recv (after_flush_recvs drv k d) (flush_args drv)).1.md.error_code = ERROR_CODE_TIMEOUT

/-- The two states agree on everything but the device, `_metadata`, the tag
flag and the logs of tags, receives and re-entries. -/
def same_config (s t : usrp_source_impl σ τ) : Prop :=
  t._nchan = s._nchan ∧ t.channels = s.channels ∧ t._rx_stream = s._rx_stream ∧
  t._samps_per_packet = s._samps_per_packet ∧ t._start_time = s._start_time ∧
  t._start_time_set = s._start_time_set ∧ t._stream_now = s._stream_now ∧
  t._samp_rate = s._samp_rate ∧ t._center_freq = s._center_freq ∧ t._id = s._id ∧
  t.cmds = s.cmds

/-- The sample count of the latest receive of the log. -/
def last_num_samps (s : usrp_source_impl σ τ) : Nat :=
  match s.rx_log with
  | [] => 0
  | e :: _ => e.num_samps

/-- The tags added since the log `old`. -/
def new_tags (old : List tag_t) (s : usrp_source_impl σ τ) : List tag_t :=
  s.tags.drop old.length

/-- The number of tags of `l` on channel `i` with key `k`. -/
def tags_on (l : List tag_t) (i : Nat) (k : tag_key) : Nat :=
  l.countP (fun t => decide (t.which_output = i ∧ t.key = k))

/-! ## A scripted device for concrete runs -/

/-- The state of the scripted device: the answers still to give, each a
count, an error code and an end-of-burst flag, and the device clock in
milliseconds. -/
structure script_dev where
  queue : List (Nat × error_code_t × Bool)
  now : Nat
deriving DecidableEq, Repr

/-- The scripted driver: each receive takes the next answer of the queue,
never more samples than asked for; on an empty queue it answers zero samples
with the error code `idle`. Times are milliseconds. -/
def scripted (idle : error_code_t) : multi_usrp script_dev Nat where
  recv d args :=
    match d.queue with
    | [] => ({ num_samps := 0,
               md := { error_code := idle, time_spec := d.now, end_of_burst := false },
               payload := fun _ _ => gr_complex_zero }, d)
    | a :: rest => ({ num_samps := min a.1 args.nsamps_per_buff,
                      md := { error_code := a.2.1, time_spec := d.now, end_of_burst := a.2.2 },
                      payload := fun chan k => ⟨chan, k⟩ }, { d with queue := rest })
  issue_stream_cmd d _ _ := d
  get_rx_stream d := d
  get_max_num_samps _ := 64
  get_time_now d := d.now
  time_spec_t x := if x = reasonable_delay then 100 else 0
  time_add a b := a + b
  get_full_secs t := t / 1000
  get_frac_secs t := ⟨t % 1000⟩
  bytes_per_item := 8

/-- A block over the scripted device with the given channel count, session
flag, tag flag and device queue; the write counters are supplied to `work`. -/
def block_on (nchan : Nat) (rx_stream tag_now : Bool) (queue : List (Nat × error_code_t × Bool)) :
    usrp_source_impl script_dev Nat :=
  { dev := { queue := queue, now := 7000 },
    _nchan := nchan,
    channels := List.range nchan,
    _rx_stream := rx_stream,
    _samps_per_packet := 1,
    _tag_now := tag_now,
    _start_time := 0,
    _start_time_set := false,
    _stream_now := decide (nchan = 1),
    _samp_rate := ⟨1⟩,
    _center_freq := ⟨2⟩,
    _metadata := { error_code := ERROR_CODE_NONE, time_spec := 0, end_of_burst := false },
    _id := 42,
    tags := [],
    cmds := [],
    rx_log := [],
    reentries := 0 }

/-- The pair a returning call gave, or `dflt` when it faulted. -/
def outcome {α β : Type} (x : Except fault (α × β)) (dflt : α × β) : α × β :=
  match x with
  | .ok p => p
  | .error _ => dflt

/-- The write counters of the concrete runs: 10 items on every port. -/
def written_10 : Nat → Nat := fun _ => 10

/-- Scenario B: two channels, the tag flag set, the first receive times out
and the retry delivers 64 samples without error. -/
def scenario_B : usrp_source_impl script_dev Nat :=
  block_on 2 true true [(0, ERROR_CODE_TIMEOUT, false), (64, ERROR_CODE_NONE, false)]

/-- The outcome of `work` with capacity 500 in scenario B. -/
def scenario_B_out : Int × usrp_source_impl script_dev Nat :=
  outcome (work (scripted ERROR_CODE_TIMEOUT) written_10 1 500 scenario_B) (0, scenario_B)

/-- A burst end: the tag flag set, one receive of 64 samples without error and
with `end_of_burst`. -/
def burst_end : usrp_source_impl script_dev Nat :=
  block_on 2 true true [(64, ERROR_CODE_NONE, true)]

/-- The outcome of `work` with capacity 500 at a burst end. -/
def burst_end_out : Int × usrp_source_impl script_dev Nat :=
  outcome (work (scripted ERROR_CODE_TIMEOUT) written_10 1 500 burst_end) (0, burst_end)

/-- An idle device whose second timeout carries `end_of_burst`: both receives
of `work` time out. -/
def idle_with_eob (tag_now : Bool) : usrp_source_impl script_dev Nat :=
  block_on 2 true tag_now [(0, ERROR_CODE_TIMEOUT, false), (0, ERROR_CODE_TIMEOUT, true)]

/-- The outcome of `work` with capacity 500 on the idle device. -/
def idle_with_eob_out (tag_now : Bool) : Int × usrp_source_impl script_dev Nat :=
  outcome (work (scripted ERROR_CODE_TIMEOUT) written_10 1 500 (idle_with_eob tag_now))
    (1, idle_with_eob tag_now)

/-- An overflow followed by a receive of 64 samples without error; the tag
flag is clear on entry. -/
def overflow_then_none : usrp_source_impl script_dev Nat :=
  block_on 2 true false [(0, ERROR_CODE_OVERFLOW, false), (64, ERROR_CODE_NONE, false)]

/-- The outcome of `work` with capacity 500 after the overflow. -/
def overflow_then_none_out : Int × usrp_source_impl script_dev Nat :=
  outcome (work (scripted ERROR_CODE_TIMEOUT) written_10 2 500 overflow_then_none)
    (0, overflow_then_none)

/-- A device that reports an overflow on every receive. -/
def always_overflow : usrp_source_impl script_dev Nat :=
  block_on 1 true false []

/-- The script of `k` overflows followed by 64 samples without error. -/
def overflows_then_none (k : Nat) : usrp_source_impl script_dev Nat :=
  block_on 1 true false
    (List.replicate k (0, ERROR_CODE_OVERFLOW, false) ++ [(64, ERROR_CODE_NONE, false)])

/-- The command `finite_acquisition_v` sends when the device state at that
moment is `d`. -/
def finite_cmd (drv : multi_usrp σ τ) (nsamps : Nat) (stream_now : Bool) (d : σ) :
    stream_cmd_t τ :=
  { stream_mode := STREAM_MODE_NUM_SAMPS_AND_DONE, num_samps := nsamps, stream_now := stream_now,
    time_spec := drv.time_add (drv.get_time_now d) (drv.time_spec_t reasonable_delay) }

/-- The part of `finite_acquisition_v` after the flush: the command, the
blocking receive and the resize, from the state `s2` the flush left. -/
def acquire (drv : multi_usrp σ τ) (nsamps nchan : Nat) (s2 : usrp_source_impl σ τ) :
    List (List gr_complex) × usrp_source_impl σ τ :=
  let s3 := issue_stream_cmd drv (finite_cmd drv nsamps s2._stream_now s2.dev) s2
  let r := rx_recv drv { nsamps_per_buff := nsamps, timeout_ms := 1000, one_packet := false } s3
  ((List.range nchan).map (fun i => resized_buffer r.1 nsamps i), r.2)

/-- Scenario A: two channels, a session, an empty device queue at the flush
and then 1000 samples without error. -/
def scenario_A : usrp_source_impl script_dev Nat :=
  block_on 2 true true [(0, ERROR_CODE_TIMEOUT, false), (1000, ERROR_CODE_NONE, false)]

/-- The outcome of `finite_acquisition_v(1000)` in scenario A. -/
def scenario_A_out : List (List gr_complex) × usrp_source_impl script_dev Nat :=
  outcome (finite_acquisition_v (scripted ERROR_CODE_TIMEOUT) 1 1000 scenario_A) ([], scenario_A)

/-- Scenario A without a session and with the tag flag clear: the flush of the
internal `stop` and the flush of the acquisition both find the queue empty. -/
def scenario_A_fresh : usrp_source_impl script_dev Nat :=
  block_on 2 false false
    [(0, ERROR_CODE_TIMEOUT, false), (0, ERROR_CODE_TIMEOUT, false),
     (1000, ERROR_CODE_NONE, false)]

/-- The outcome of `finite_acquisition_v(1000)` without a session. -/
def scenario_A_fresh_out : List (List gr_complex) × usrp_source_impl script_dev Nat :=
  outcome (finite_acquisition_v (scripted ERROR_CODE_TIMEOUT) 1 1000 scenario_A_fresh)
    ([], scenario_A_fresh)

/-- A session on a device that answers every receive with zero samples and
error code none, so it never reports a timeout. -/
def never_idle : usrp_source_impl script_dev Nat :=
  block_on 2 true false []

/-- A session with a start time of 5000 ms pending, the device clock at
7000 ms, an empty queue at the flush and then 5 samples. -/
def pending_start : usrp_source_impl script_dev Nat :=
  set_start_time 5000
    (block_on 2 true true [(0, ERROR_CODE_TIMEOUT, false), (5, ERROR_CODE_NONE, false)])

/-- The outcome of `finite_acquisition_v(5)` with the start time pending. -/
def pending_start_out : List (List gr_complex) × usrp_source_impl script_dev Nat :=
  outcome (finite_acquisition_v (scripted ERROR_CODE_TIMEOUT) 1 5 pending_start)
    ([], pending_start)

end UsrpSource

/-! ## gr-blocks `stream_to_tagged_stream_impl`

A shallow embedding of `gr-blocks/lib/stream_to_tagged_stream_impl.cc`. The
type of `d_next_tag_pos` is declared in the header, not in this file: the
modulus `M` of that integer type is a parameter of the model (`2 ^ 64` for a
`uint64_t`). `packet_len` is an `unsigned`, `nitems_written(0)` a `uint64_t`. -/

namespace StreamToTaggedStream

/-- The faults of the model: the `std::invalid_argument` of the constructor
and the exhaustion of the fuel of the `while` loop. -/
inductive fault where
  | invalid_argument
  | out_of_fuel
deriving DecidableEq, Repr

/-- The two tag values and source markers that occur: `pmt::PMT_T` and the
default `pmt::PMT_F`. -/
inductive pmt_t where
  | PMT_T
  | PMT_F
deriving DecidableEq, Repr

/-- One call `add_item_tag(which_output, abs_offset, key, value)`; the source
marker is the default `pmt::PMT_F`. -/
structure tag_t where
  which_output : Nat
  abs_offset : Nat
  key : String
  value : pmt_t
  srcid : pmt_t
deriving DecidableEq, Repr

/-- The block `stream_to_tagged_stream_impl`: its member variables and the log
of the tags handed to `add_item_tag`. -/
structure stream_to_tagged_stream_impl where
  d_itemsize : Nat
  d_packet_len : Nat
  d_tsb_key : String
  d_next_tag_pos : Nat
  tags : List tag_t
deriving DecidableEq, Repr

/-- The constructor, as `stream_to_tagged_stream::make` calls it: the members
are initialised, `d_next_tag_pos` with `packet_len-1` computed as an
`unsigned`, and then `packet_len < 1` throws `std::invalid_argument`. -/
def make (M : Nat) (itemsize vlen packet_len : Nat) (tsb_key : String) :
    Except fault stream_to_tagged_stream_impl :=
  let b : stream_to_tagged_stream_impl :=
    { d_itemsize := (itemsize * vlen) % 2 ^ 64,
      d_packet_len := packet_len,
      d_tsb_key := tsb_key,
      d_next_tag_pos := ((packet_len + 2 ^ 32 - 1) % 2 ^ 32) % M,
      tags := [] }
  if packet_len < 1 then .error fault.invalid_argument else .ok b

/-- The loop `while(d_next_tag_pos < nitems_written(0) + noutput_items)` of
`work`, `limit` being the right-hand side. One unit of fuel per test of the
condition. -/
def tag_loop (M : Nat) :
    Nat → Nat → stream_to_tagged_stream_impl → Except fault stream_to_tagged_stream_impl
  | 0, _, _ => .error fault.out_of_fuel
  | fuel + 1, limit, b =>
    if b.d_next_tag_pos < limit then
      tag_loop M fuel limit
        { b with
            tags := b.tags ++ [{ which_output := 0, abs_offset := b.d_next_tag_pos,
                                 key := b.d_tsb_key, value := pmt_t.PMT_T,
                                 srcid := pmt_t.PMT_F }],
            d_next_tag_pos := (b.d_next_tag_pos + b.d_packet_len) % M }
    else .ok b

/-- The member `work`: the items are copied (`input` is the input buffer in
bytes, the copy is the second component of the result), the tags are added
and `noutput_items` is returned. -/
def work (M fuel nitems_written noutput_items : Nat) (input : List Nat)
    (b : stream_to_tagged_stream_impl) :
    Except fault (Nat × List Nat × stream_to_tagged_stream_impl) :=
  let out := input.take (noutput_items * b.d_itemsize)
  match tag_loop M fuel ((nitems_written + noutput_items) % 2 ^ 64) b with
  | .error e => .error e
  | .ok b1 => .ok (noutput_items, out, b1)

/-- The scheduler: the calls of `work` in order, each with its item count and
input buffer, `nitems_written(0)` growing by the count each call returned. The
result is the final `nitems_written(0)` and the block. -/
def run (M fuel : Nat) :
    List (Nat × List Nat) → Nat → stream_to_tagged_stream_impl →
      Except fault (Nat × stream_to_tagged_stream_impl)
  | [], written, b => .ok (written, b)
  | call :: rest, written, b =>
    match work M fuel written call.1 call.2 b with
    | .error e => .error e
    | .ok r => run M fuel rest ((written + r.1) % 2 ^ 64) r.2.2

/-- The number of items of a sequence of calls. -/
def total (calls : List (Nat × List Nat)) : Nat :=
  (calls.map Prod.fst).sum

/-- The boundary tag at offset `o`. -/
def boundary_tag (key : String) (o : Nat) : tag_t :=
  { which_output := 0, abs_offset := o, key := key, value := pmt_t.PMT_T,
    srcid := pmt_t.PMT_F }

/-- The offsets `j * P + (P - 1)` for `j` below `T / P`, in increasing order. -/
def boundary_offsets (P T : Nat) : List Nat :=
  (List.range (T / P)).map (fun j => j * P + (P - 1))

/-- Three calls with 3, 5 and 2 items of one byte. -/
def three_calls : List (Nat × List Nat) :=
  [(3, [1, 2, 3]), (5, [4, 5, 6, 7, 8]), (2, [9, 10])]

end StreamToTaggedStream

/-! ## Lemmas shared by the results -/

namespace UsrpSource
open error_code_t tag_key stream_mode_t

variable {σ τ : Type}

/-- The device state after a command went to every channel of `l`. -/
theorem issue_fold_eq (drv : multi_usrp σ τ) (cmd : stream_cmd_t τ) (l : List Nat)
    (s : usrp_source_impl σ τ) :
    l.foldl
      (fun acc chan =>
        { acc with dev := drv.issue_stream_cmd acc.dev cmd chan,
                   cmds := acc.cmds ++ [(cmd, chan)] }) s
    = { s with dev := l.foldl (fun d c => drv.issue_stream_cmd d cmd c) s.dev,
               cmds := s.cmds ++ l.map (fun c => (cmd, c)) } := by
  induction l generalizing s with
  | nil => simp
  | cons c l ih => simp [List.foldl, ih]

/-- The effect of `issue_stream_cmd`: only the device and the command log move. -/
theorem issue_stream_cmd_eq (drv : multi_usrp σ τ) (cmd : stream_cmd_t τ)
    (s : usrp_source_impl σ τ) :
    issue_stream_cmd drv cmd s
    = { s with dev := s.channels.foldl (fun d c => drv.issue_stream_cmd d cmd c) s.dev,
               cmds := s.cmds ++ s.channels.map (fun c => (cmd, c)) } := by
  unfold issue_stream_cmd
  exact issue_fold_eq drv cmd s.channels s

/-- An unfolding of `work` through `recv_stage` and `overflow_reentry`. -/
theorem work_succ (drv : multi_usrp σ τ) (nw : Nat → Nat) (fuel n : Nat)
    (s : usrp_source_impl σ τ) (hrx : s._rx_stream = true) :
    work drv nw (fuel + 1) n s =
      match (recv_stage drv n s).2._metadata.error_code with
      | ERROR_CODE_NONE =>
        .ok (after_switch nw (recv_stage drv n s).1.num_samps
          (if (recv_stage drv n s).2._tag_now then
            { (recv_stage drv n s).2 with
                _tag_now := false,
                tags := (recv_stage drv n s).2.tags
                  ++ time_rate_freq_tags drv (recv_stage drv n s).2 (nw 0) }
           else (recv_stage drv n s).2))
      | ERROR_CODE_TIMEOUT => .ok (0, (recv_stage drv n s).2)
      | ERROR_CODE_OVERFLOW => work drv nw fuel n (overflow_reentry drv n s)
      | ERROR_CODE_OTHER =>
        .ok (after_switch nw (recv_stage drv n s).1.num_samps (recv_stage drv n s).2) := by
  simp only [work, hrx, recv_stage, overflow_reentry]
  rfl

theorem same_config_trans {s t u : usrp_source_impl σ τ} (h1 : same_config s t)
    (h2 : same_config t u) : same_config s u := by
  obtain ⟨a1, a2, a3, a4, a5, a6, a7, a8, a9, a10, a11⟩ := h1
  obtain ⟨b1, b2, b3, b4, b5, b6, b7, b8, b9, b10, b11⟩ := h2
  exact ⟨b1.trans a1, b2.trans a2, b3.trans a3, b4.trans a4, b5.trans a5, b6.trans a6,
    b7.trans a7, b8.trans a8, b9.trans a9, b10.trans a10, b11.trans a11⟩

/-- A receive moves only the device, `_metadata` and the receive log. -/
theorem rx_recv_frame (drv : multi_usrp σ τ) (a : recv_args) (s : usrp_source_impl σ τ) :
    same_config s (rx_recv drv a s).2 ∧ (rx_recv drv a s).2.tags = s.tags ∧
    (rx_recv drv a s).2._tag_now = s._tag_now ∧ (rx_recv drv a s).2.reentries = s.reentries ∧
    last_num_samps (rx_recv drv a s).2 = (rx_recv drv a s).1.num_samps ∧
    (rx_recv drv a s).2._metadata = (rx_recv drv a s).1.md := by
  simp [rx_recv, same_config, last_num_samps]

/-- The receives at the head of `work` move only the device, `_metadata` and
the receive log; the count is that of the latest receive. -/
theorem recv_stage_frame (drv : multi_usrp σ τ) (n : Nat) (s : usrp_source_impl σ τ) :
    same_config s (recv_stage drv n s).2 ∧ (recv_stage drv n s).2.tags = s.tags ∧
    (recv_stage drv n s).2._tag_now = s._tag_now ∧
    (recv_stage drv n s).2.reentries = s.reentries ∧
    last_num_samps (recv_stage drv n s).2 = (recv_stage drv n s).1.num_samps := by
  unfold recv_stage
  simp only []
  split
  · simp [rx_recv, same_config, last_num_samps]
  · simp [rx_recv, same_config, last_num_samps]

/-- The tag bundle depends on the block only through the channel count, the
metadata, the rate, the frequency and the identity. -/
theorem time_rate_freq_tags_congr (drv : multi_usrp σ τ) (s t : usrp_source_impl σ τ) (off : Nat)
    (h1 : t._nchan = s._nchan) (h2 : t._metadata = s._metadata)
    (h3 : t._samp_rate = s._samp_rate) (h4 : t._center_freq = s._center_freq)
    (h5 : t._id = s._id) :
    time_rate_freq_tags drv t off = time_rate_freq_tags drv s off := by
  have hb : bundle_for drv t off = bundle_for drv s off := by
    funext i
    simp [bundle_for, h2, h3, h4, h5]
  simp [time_rate_freq_tags, hb, h1]

theorem eob_tags_congr (s t : usrp_source_impl σ τ) (nw : Nat → Nat) (k : Nat)
    (h1 : t._nchan = s._nchan) (h5 : t._id = s._id) :
    eob_tags t nw k = eob_tags s nw k := by
  simp [eob_tags, h1, h5]

/-- The code after the `switch`: end-of-burst tags and the flag. -/
theorem after_switch_spec (nw : Nat → Nat) (num : Nat) (t : usrp_source_impl σ τ) :
    same_config t (after_switch nw num t).2 ∧
    (after_switch nw num t).2._metadata = t._metadata ∧
    (after_switch nw num t).2.reentries = t.reentries ∧
    (after_switch nw num t).2.rx_log = t.rx_log ∧
    (after_switch nw num t).2.tags
      = t.tags ++ (if t._metadata.end_of_burst = true then eob_tags t nw num else []) ∧
    (after_switch nw num t).2._tag_now = (t._metadata.end_of_burst || t._tag_now) ∧
    (after_switch nw num t).1 = to_int num := by
  unfold after_switch
  cases hb : t._metadata.end_of_burst <;> simp [same_config]

/-- What one returning call of `work` did, in terms of the state it left:
the configuration is untouched, the final metadata is not an overflow, the
tags added are the TIME/RATE/FREQ bundle (when the final code is none and the
flag was set on entry or by an overflow) followed by the end-of-burst tags
(when the final code is not a timeout and the burst ended). -/
theorem work_spec (drv : multi_usrp σ τ) (nw : Nat → Nat) :
    ∀ (fuel n : Nat) (s : usrp_source_impl σ τ) (r : Int) (s' : usrp_source_impl σ τ),
    work drv nw fuel n s = .ok (r, s') →
    same_config s s' ∧
    s'._metadata.error_code ≠ ERROR_CODE_OVERFLOW ∧
    s.reentries ≤ s'.reentries ∧
    s'.tags = s.tags
      ++ (if s'._metadata.error_code = ERROR_CODE_NONE
            ∧ (s._tag_now = true ∨ s.reentries < s'.reentries)
          then time_rate_freq_tags drv s' (nw 0) else [])
      ++ (if s'._metadata.error_code ≠ ERROR_CODE_TIMEOUT ∧ s'._metadata.end_of_burst = true
          then eob_tags s' nw (last_num_samps s') else []) ∧
    s'._tag_now =
      (if s'._metadata.error_code = ERROR_CODE_NONE then s'._metadata.end_of_burst
       else if s'._metadata.error_code = ERROR_CODE_TIMEOUT
         then (s._tag_now || decide (s.reentries < s'.reentries))
       else (s'._metadata.end_of_burst || (s._tag_now || decide (s.reentries < s'.reentries)))) ∧
    r = (if s'._metadata.error_code = ERROR_CODE_TIMEOUT then 0
         else to_int (last_num_samps s')) := by
  intro fuel
  induction fuel with
  | zero => intro n s r s' h; simp [work] at h
  | succ fuel ih =>
    intro n s r s' h
    cases hrx : s._rx_stream with
    | false => simp [work, hrx] at h
    | true =>
      rw [work_succ drv nw fuel n s hrx] at h
      obtain ⟨hc, ht, htn, hre, hl⟩ := recv_stage_frame drv n s
      cases hE : (recv_stage drv n s).2._metadata.error_code with
      | ERROR_CODE_TIMEOUT =>
        simp only [hE] at h
        injection h with h
        injection h with h1 h2
        subst h1 h2
        refine ⟨hc, by simp [hE], by omega, ?_, ?_, ?_⟩
        · simp [hE, ht]
        · simp [hE, htn, hre]
        · simp [hE]
      | ERROR_CODE_OVERFLOW =>
        simp only [hE] at h
        obtain ⟨kc, ke, kr, kt, kn, kret⟩ := ih n _ r s' h
        have hc2 : same_config (recv_stage drv n s).2 (overflow_reentry drv n s) := by
          simp [overflow_reentry, same_config]
        have hre2 : (overflow_reentry drv n s).reentries = s.reentries + 1 := by
          simp [overflow_reentry, hre]
        have ht2 : (overflow_reentry drv n s).tags = s.tags := by
          simp [overflow_reentry, ht]
        have htn2 : (overflow_reentry drv n s)._tag_now = true := by
          simp [overflow_reentry]
        have hlt : s.reentries < s'.reentries := by omega
        refine ⟨same_config_trans (same_config_trans hc hc2) kc, ke, by omega, ?_, ?_, kret⟩
        · rw [kt, ht2]
          simp [htn2, hlt]
        · rw [kn]
          simp [htn2, hlt]
      | ERROR_CODE_NONE =>
        simp only [hE] at h
        injection h with h
        cases htg : (recv_stage drv n s).2._tag_now with
        | false =>
          simp only [htg, Bool.false_eq_true, ↓reduceIte] at h
          obtain ⟨ac, am, ar, al, at_, an, aret⟩ :=
            after_switch_spec nw (recv_stage drv n s).1.num_samps (recv_stage drv n s).2
          rw [h] at ac am ar al at_ an aret
          simp only at ac am ar al at_ an aret
          have hlast : last_num_samps s' = (recv_stage drv n s).1.num_samps := by
            rw [← hl]; simp [last_num_samps, al]
          have hs : s._tag_now = false := by rw [← htn]; exact htg
          refine ⟨same_config_trans hc ac, by simp [am, hE], by omega, ?_, ?_, ?_⟩
          · rw [at_, ht, hlast, am, hE]
            have hno : ¬ s.reentries < s'.reentries := by omega
            simp [hs, hno, eob_tags_congr _ _ nw _ ac.1 ac.2.2.2.2.2.2.2.2.2.1]
          · rw [an, am, hE, htg]; simp
          · simp [am, hE, hlast, aret]
        | true =>
          simp only [htg, ↓reduceIte] at h
          obtain ⟨ac, am, ar, al, at_, an, aret⟩ :=
            after_switch_spec nw (recv_stage drv n s).1.num_samps
              { (recv_stage drv n s).2 with
                  _tag_now := false,
                  tags := (recv_stage drv n s).2.tags
                    ++ time_rate_freq_tags drv (recv_stage drv n s).2 (nw 0) }
          rw [h] at ac am ar al at_ an aret
          simp only at ac am ar al at_ an aret
          have hlast : last_num_samps s' = (recv_stage drv n s).1.num_samps := by
            rw [← hl]; simp [last_num_samps, al]
          have hs : s._tag_now = true := by rw [← htn]; exact htg
          have ac2 : same_config (recv_stage drv n s).2 s' := ac
          refine ⟨same_config_trans hc ac2, by simp [am, hE], by omega, ?_, ?_, ?_⟩
          · rw [at_, ht, hlast, am, hE]
            have e2 := time_rate_freq_tags_congr drv (recv_stage drv n s).2 s' (nw 0)
              ac2.1 am ac2.2.2.2.2.2.2.2.1 ac2.2.2.2.2.2.2.2.2.1 ac2.2.2.2.2.2.2.2.2.2.1
            have hn : s'._nchan = (recv_stage drv n s).2._nchan := ac2.1
            have hid : s'._id = (recv_stage drv n s).2._id := ac2.2.2.2.2.2.2.2.2.2.1
            simp [hs, e2, eob_tags, hn, hid]
          · rw [an, am, hE]; simp
          · simp [am, hE, hlast, aret]
      | ERROR_CODE_OTHER =>
        simp only [hE] at h
        injection h with h
        obtain ⟨ac, am, ar, al, at_, an, aret⟩ :=
          after_switch_spec nw (recv_stage drv n s).1.num_samps (recv_stage drv n s).2
        rw [h] at ac am ar al at_ an aret
        simp only at ac am ar al at_ an aret
        have hlast : last_num_samps s' = (recv_stage drv n s).1.num_samps := by
          rw [← hl]; simp [last_num_samps, al]
        refine ⟨same_config_trans hc ac, by simp [am, hE], by omega, ?_, ?_, ?_⟩
        · rw [at_, ht, hlast, am, hE]
          simp [eob_tags_congr _ _ nw _ ac.1 ac.2.2.2.2.2.2.2.2.2.1]
        · rw [an, am, hE, htn]
          have hno : ¬ s.reentries < s'.reentries := by omega
          simp [hno]
        · simp [am, hE, hlast, aret]

/-- The bundle of `m` channels has one tag of every key but EOB on each channel
below `m` and none elsewhere. -/
theorem tags_on_bundle (drv : multi_usrp σ τ) (s : usrp_source_impl σ τ) (off i : Nat)
    (k : tag_key) (hk : k ≠ EOB_KEY) (m : Nat) :
    tags_on ((List.range m).flatMap (bundle_for drv s off)) i k = if i < m then 1 else 0 := by
  induction m with
  | zero => simp [tags_on]
  | succ m ih =>
    have hone : tags_on (bundle_for drv s off m) i k = if i = m then 1 else 0 := by
      by_cases him : i = m
      · subst him
        cases k <;> simp [tags_on, bundle_for, List.countP_cons] at hk ⊢
      · have him2 : ¬ m = i := fun h => him h.symm
        simp [tags_on, bundle_for, List.countP_cons, him, him2]
    unfold tags_on at ih hone ⊢
    rw [List.range_succ, List.flatMap_append, List.countP_append, ih, List.flatMap_singleton,
      hone]
    by_cases h1 : i < m
    · have h2 : i ≠ m := by omega
      have h3 : i < m + 1 := by omega
      simp [h1, h2, h3]
    · by_cases h2 : i = m
      · simp [h2]
      · have h3 : ¬ i < m + 1 := by omega
        simp [h1, h2, h3]

/-- The end-of-burst tags hold no tag with another key. -/
theorem tags_on_eob (s : usrp_source_impl σ τ) (nw : Nat → Nat) (num i : Nat)
    (k : tag_key) (hk : k ≠ EOB_KEY) :
    tags_on (eob_tags s nw num) i k = 0 := by
  unfold tags_on
  rw [List.countP_eq_zero]
  intro t ht
  simp only [eob_tags, List.mem_map] at ht
  obtain ⟨j, _, rfl⟩ := ht
  have hk2 : ¬ EOB_KEY = k := fun h => hk h.symm
  simp [hk2]

/-- Every tag of the bundle sits at the given offset. -/
theorem bundle_offset (drv : multi_usrp σ τ) (s : usrp_source_impl σ τ) (off : Nat)
    (t : tag_t) (ht : t ∈ time_rate_freq_tags drv s off) :
    t.abs_offset = off ∧ t.key ≠ EOB_KEY := by
  simp only [time_rate_freq_tags, List.mem_flatMap] at ht
  obtain ⟨i, _, hi⟩ := ht
  simp only [bundle_for, List.mem_cons, List.mem_singleton, List.not_mem_nil, or_false] at hi
  rcases hi with rfl | rfl | rfl <;> simp

/-- Every end-of-burst tag has the key EOB. -/
theorem eob_key (s : usrp_source_impl σ τ) (nw : Nat → Nat) (num : Nat)
    (t : tag_t) (ht : t ∈ eob_tags s nw num) :
    t.key = EOB_KEY ∧ t.which_output < s._nchan ∧
      t.abs_offset = eob_offset (nw t.which_output) num := by
  simp only [eob_tags, List.mem_map, List.mem_range] at ht
  obtain ⟨i, hi, rfl⟩ := ht
  simp [hi]

/-- The latest entry of the receive log after the receives at the head of
`work` is the receive whose metadata the `switch` reads. -/
theorem recv_stage_log (drv : multi_usrp σ τ) (n : Nat) (s : usrp_source_impl σ τ) :
    ∃ e l, (recv_stage drv n s).2.rx_log = e :: l ∧ e.md = (recv_stage drv n s).2._metadata ∧
      e.args.nsamps_per_buff = n ∧ e.num_samps = (recv_stage drv n s).1.num_samps := by
  unfold recv_stage
  simp only []
  split
  · exact ⟨_, _, rfl, rfl, rfl, rfl⟩
  · exact ⟨_, _, rfl, rfl, rfl, rfl⟩

/-- After a returning call of `work` the latest entry of the receive log is
the final receive: it asked for `noutput_items` samples and its metadata is
the one left in `_metadata`. -/
theorem work_log (drv : multi_usrp σ τ) (nw : Nat → Nat) :
    ∀ (fuel n : Nat) (s : usrp_source_impl σ τ) (r : Int) (s' : usrp_source_impl σ τ),
    work drv nw fuel n s = .ok (r, s') →
    ∃ e l, s'.rx_log = e :: l ∧ e.md = s'._metadata ∧ e.args.nsamps_per_buff = n ∧
      e.num_samps = last_num_samps s' := by
  intro fuel
  induction fuel with
  | zero => intro n s r s' h; simp [work] at h
  | succ fuel ih =>
    intro n s r s' h
    cases hrx : s._rx_stream with
    | false => simp [work, hrx] at h
    | true =>
      rw [work_succ drv nw fuel n s hrx] at h
      obtain ⟨e, l, hl, hm, ha, _⟩ := recv_stage_log drv n s
      cases hE : (recv_stage drv n s).2._metadata.error_code with
      | ERROR_CODE_TIMEOUT =>
        simp only [hE] at h
        injection h with h
        injection h with h1 h2
        subst h2
        exact ⟨e, l, hl, hm, ha, by simp [last_num_samps, hl]⟩
      | ERROR_CODE_OVERFLOW =>
        simp only [hE] at h
        exact ih n _ r s' h
      | ERROR_CODE_NONE =>
        simp only [hE] at h
        injection h with h
        cases htg : (recv_stage drv n s).2._tag_now with
        | false =>
          simp only [htg, Bool.false_eq_true, ↓reduceIte] at h
          obtain ⟨_, am, _, al, _, _, _⟩ :=
            after_switch_spec nw (recv_stage drv n s).1.num_samps (recv_stage drv n s).2
          rw [h] at am al
          simp only at am al
          exact ⟨e, l, by rw [al, hl], by rw [am, hm], ha, by simp [last_num_samps, al, hl]⟩
        | true =>
          simp only [htg, ↓reduceIte] at h
          obtain ⟨_, am, _, al, _, _, _⟩ :=
            after_switch_spec nw (recv_stage drv n s).1.num_samps
              { (recv_stage drv n s).2 with
                  _tag_now := false,
                  tags := (recv_stage drv n s).2.tags
                    ++ time_rate_freq_tags drv (recv_stage drv n s).2 (nw 0) }
          rw [h] at am al
          simp only at am al
          exact ⟨e, l, by rw [al, hl], by rw [am, hm], ha, by simp [last_num_samps, al, hl]⟩
      | ERROR_CODE_OTHER =>
        simp only [hE] at h
        injection h with h
        obtain ⟨_, am, _, al, _, _, _⟩ :=
          after_switch_spec nw (recv_stage drv n s).1.num_samps (recv_stage drv n s).2
        rw [h] at am al
        simp only at am al
        exact ⟨e, l, by rw [al, hl], by rw [am, hm], ha, by simp [last_num_samps, al, hl]⟩

/-- The end-of-burst tags: one on each channel below `_nchan`. -/
theorem tags_on_eob_key (s : usrp_source_impl σ τ) (nw : Nat → Nat) (num i : Nat) :
    tags_on (eob_tags s nw num) i EOB_KEY = if i < s._nchan then 1 else 0 := by
  unfold eob_tags
  generalize s._nchan = m
  induction m with
  | zero => simp [tags_on]
  | succ m ih =>
    unfold tags_on at ih ⊢
    rw [List.range_succ, List.map_append, List.countP_append, ih]
    by_cases h1 : i < m
    · have h2 : ¬ m = i := by omega
      have h3 : i < m + 1 := by omega
      simp [h1, h2, h3]
    · by_cases h2 : m = i
      · subst h2; simp
      · have h3 : ¬ i < m + 1 := by omega
        simp [h1, h2, h3]

/-- The bundle holds no end-of-burst tag. -/
theorem tags_on_bundle_eob (drv : multi_usrp σ τ) (s : usrp_source_impl σ τ) (off i : Nat) :
    tags_on (time_rate_freq_tags drv s off) i EOB_KEY = 0 := by
  unfold tags_on
  rw [List.countP_eq_zero]
  intro t ht
  have := (bundle_offset drv s off t ht).2
  simp [this]

/-- Without wrap-around the unsigned offset is `written + num_samps - 1`. -/
theorem eob_offset_exact (written num : Nat) (h1 : 1 ≤ num) (h2 : written + num - 1 < 2 ^ 64) :
    eob_offset written num = written + num - 1 := by
  unfold eob_offset
  norm_num at h2 ⊢
  omega

/-! ## C1: the TIME/RATE/FREQ bundle -/

/-- C1, as stated, fails: a call of `work` that ends with error code none and
started with the tag flag set returns with the flag set again when the final
metadata carries `end_of_burst`. Two channels, one receive of 64 samples. -/
theorem work_none_at_burst_end_leaves_flag_set :
    work (scripted ERROR_CODE_TIMEOUT) written_10 1 500 burst_end
      = .ok (burst_end_out.1, burst_end_out.2) ∧
    burst_end._tag_now = true ∧
    burst_end_out.2._metadata.error_code = ERROR_CODE_NONE ∧
    burst_end_out.2._tag_now = true := by
  refine ⟨rfl, rfl, rfl, rfl⟩

/-- C1 (amended): when a call of `work` ends with error code none and the tag
flag was set on entry, the tags it added are the TIME, RATE and FREQ tags of
every channel at offset `nitems_written(0)`, followed only by end-of-burst
tags; each of the `_nchan` channels got exactly one tag of each of the three
keys; and on return the flag is false unless the final metadata carries
`end_of_burst`, in which case it is true. -/
theorem work_none_adds_bundle_once (drv : multi_usrp σ τ) (nw : Nat → Nat) (fuel n : Nat)
    (s : usrp_source_impl σ τ) (r : Int) (s' : usrp_source_impl σ τ)
    (h : work drv nw fuel n s = .ok (r, s'))
    (hnone : s'._metadata.error_code = ERROR_CODE_NONE)
    (htag : s._tag_now = true) :
    s'.tags = s.tags ++ time_rate_freq_tags drv s' (nw 0)
      ++ (if s'._metadata.end_of_burst = true then eob_tags s' nw (last_num_samps s') else []) ∧
    s'._nchan = s._nchan ∧
    (∀ i k, k ≠ EOB_KEY → tags_on (new_tags s.tags s') i k = if i < s._nchan then 1 else 0) ∧
    (∀ t ∈ new_tags s.tags s', t.key ≠ EOB_KEY → t.abs_offset = nw 0) ∧
    s'._tag_now = s'._metadata.end_of_burst := by
  obtain ⟨hc, _, _, ht, hn, _⟩ := work_spec drv nw fuel n s r s' h
  have htags : s'.tags = s.tags ++ time_rate_freq_tags drv s' (nw 0)
      ++ (if s'._metadata.end_of_burst = true then eob_tags s' nw (last_num_samps s')
          else []) := by
    rw [ht]; simp [hnone, htag]
  have hnew : new_tags s.tags s' = time_rate_freq_tags drv s' (nw 0)
      ++ (if s'._metadata.end_of_burst = true then eob_tags s' nw (last_num_samps s')
          else []) := by
    unfold new_tags
    rw [htags, List.append_assoc, List.drop_left]
  refine ⟨htags, hc.1, ?_, ?_, ?_⟩
  · intro i k hk
    rw [hnew]
    unfold tags_on
    rw [List.countP_append]
    have h1 := tags_on_bundle drv s' (nw 0) i k hk s'._nchan
    unfold tags_on at h1
    rw [show time_rate_freq_tags drv s' (nw 0)
          = (List.range s'._nchan).flatMap (bundle_for drv s' (nw 0)) from rfl, h1, hc.1]
    have h2 : List.countP (fun t => decide (t.which_output = i ∧ t.key = k))
        (if s'._metadata.end_of_burst = true then eob_tags s' nw (last_num_samps s') else [])
        = 0 := by
      split
      · exact tags_on_eob s' nw _ i k hk
      · rfl
    rw [h2]; simp
  · intro t ht hk
    rw [hnew, List.mem_append] at ht
    rcases ht with ht | ht
    · exact (bundle_offset drv s' (nw 0) t ht).1
    · split at ht
      · exact absurd (eob_key s' nw _ t ht).1 hk
      · simp at ht
  · rw [hn]; simp [hnone]

/-- Scenario B as an instance of C1 (amended): capacity 500, the first receive
times out, the retry gives 64 samples without error, the flag was set. -/
theorem work_none_adds_bundle_once_witness :
    work (scripted ERROR_CODE_TIMEOUT) written_10 1 500 scenario_B
      = .ok (scenario_B_out.1, scenario_B_out.2) ∧
    scenario_B_out.1 = 64 ∧
    scenario_B_out.2._tag_now = false ∧
    (∀ i k, k ≠ EOB_KEY →
      tags_on (new_tags scenario_B.tags scenario_B_out.2) i k
        = if i < scenario_B._nchan then 1 else 0) ∧
    (∀ t ∈ new_tags scenario_B.tags scenario_B_out.2, t.key ≠ EOB_KEY → t.abs_offset = 10) :=
  have hw := work_none_adds_bundle_once (scripted ERROR_CODE_TIMEOUT) written_10 1 500
    scenario_B scenario_B_out.1 scenario_B_out.2 rfl rfl rfl
  ⟨rfl, rfl, rfl, hw.2.2.1, hw.2.2.2.1⟩

/-! ## C2: the end-of-burst tag -/

/-- C2, as stated, fails: a call of `work` whose final metadata carries
`end_of_burst` but is classified timeout adds no tag and returns with the tag
flag as it was, here false. -/
theorem work_timeout_with_eob_adds_no_tag :
    work (scripted ERROR_CODE_TIMEOUT) written_10 1 500 (idle_with_eob false)
      = .ok ((idle_with_eob_out false).1, (idle_with_eob_out false).2) ∧
    (idle_with_eob_out false).2._metadata.end_of_burst = true ∧
    (idle_with_eob_out false).2.tags = (idle_with_eob false).tags ∧
    (idle_with_eob_out false).2._tag_now = false := by
  refine ⟨rfl, rfl, rfl, rfl⟩

/-- C2 (amended): when a call of `work` ends with a final metadata that
carries `end_of_burst` and is not classified timeout, the last tags it added
are the end-of-burst tags, exactly one on each of the `_nchan` channels, the
one of channel `i` at `nitems_written(i) + n - 1` in unsigned 64-bit
arithmetic, `n` being the count of the final receive; the call returns that
count and the tag flag is true on return. -/
theorem work_eob_adds_tag (drv : multi_usrp σ τ) (nw : Nat → Nat) (fuel n : Nat)
    (s : usrp_source_impl σ τ) (r : Int) (s' : usrp_source_impl σ τ)
    (h : work drv nw fuel n s = .ok (r, s'))
    (heob : s'._metadata.end_of_burst = true)
    (hnt : s'._metadata.error_code ≠ ERROR_CODE_TIMEOUT) :
    (∃ e l, s'.rx_log = e :: l ∧ e.md = s'._metadata ∧ e.num_samps = last_num_samps s') ∧
    (∃ pre, s'.tags = s.tags ++ pre ++ eob_tags s' nw (last_num_samps s') ∧
      ∀ t ∈ pre, t.key ≠ EOB_KEY) ∧
    s'._nchan = s._nchan ∧
    (∀ i, tags_on (new_tags s.tags s') i EOB_KEY = if i < s._nchan then 1 else 0) ∧
    (∀ t ∈ new_tags s.tags s', t.key = EOB_KEY →
      t.abs_offset = eob_offset (nw t.which_output) (last_num_samps s')) ∧
    (∀ i, 1 ≤ last_num_samps s' → nw i + last_num_samps s' - 1 < 2 ^ 64 →
      eob_offset (nw i) (last_num_samps s') = nw i + last_num_samps s' - 1) ∧
    r = to_int (last_num_samps s') ∧
    s'._tag_now = true := by
  obtain ⟨hc, _, _, ht, hn, hr⟩ := work_spec drv nw fuel n s r s' h
  obtain ⟨e, l, hl, hm, _, hnum⟩ := work_log drv nw fuel n s r s' h
  have hpre : ∀ t ∈ (if s'._metadata.error_code = ERROR_CODE_NONE
        ∧ (s._tag_now = true ∨ s.reentries < s'.reentries)
      then time_rate_freq_tags drv s' (nw 0) else []), t.key ≠ EOB_KEY := by
    intro t ht
    split at ht
    · exact (bundle_offset drv s' (nw 0) t ht).2
    · simp at ht
  have htags : s'.tags = s.tags
      ++ (if s'._metadata.error_code = ERROR_CODE_NONE
            ∧ (s._tag_now = true ∨ s.reentries < s'.reentries)
          then time_rate_freq_tags drv s' (nw 0) else [])
      ++ eob_tags s' nw (last_num_samps s') := by
    rw [ht]; simp [hnt, heob]
  have hnew : new_tags s.tags s' =
      (if s'._metadata.error_code = ERROR_CODE_NONE
            ∧ (s._tag_now = true ∨ s.reentries < s'.reentries)
          then time_rate_freq_tags drv s' (nw 0) else [])
      ++ eob_tags s' nw (last_num_samps s') := by
    unfold new_tags
    rw [htags, List.append_assoc, List.drop_left]
  refine ⟨⟨e, l, hl, hm, hnum⟩, ⟨_, htags, hpre⟩, hc.1, ?_, ?_, ?_, ?_, ?_⟩
  · intro i
    rw [hnew]
    unfold tags_on
    rw [List.countP_append]
    have h1 := tags_on_eob_key s' nw (last_num_samps s') i
    unfold tags_on at h1
    rw [h1, hc.1]
    have h2 : List.countP (fun t => decide (t.which_output = i ∧ t.key = EOB_KEY))
        (if s'._metadata.error_code = ERROR_CODE_NONE
            ∧ (s._tag_now = true ∨ s.reentries < s'.reentries)
          then time_rate_freq_tags drv s' (nw 0) else []) = 0 := by
      split
      · exact tags_on_bundle_eob drv s' (nw 0) i
      · rfl
    rw [h2]; simp
  · intro t ht hk
    rw [hnew, List.mem_append] at ht
    rcases ht with ht | ht
    · exact absurd hk (hpre t ht)
    · exact (eob_key s' nw _ t ht).2.2
  · intro i h1 h2
    exact eob_offset_exact _ _ h1 h2
  · rw [hr]; simp [hnt]
  · rw [hn]
    by_cases hN : s'._metadata.error_code = ERROR_CODE_NONE
    · simp [hN, heob]
    · simp [hN, hnt, heob]

/-- A burst end as an instance of C2 (amended): 64 samples without error and
with `end_of_burst`, written offset 10, so the tags sit at offset 73. -/
theorem work_eob_adds_tag_witness :
    work (scripted ERROR_CODE_TIMEOUT) written_10 1 500 burst_end
      = .ok (burst_end_out.1, burst_end_out.2) ∧
    burst_end_out.2._metadata.end_of_burst = true ∧
    burst_end_out.2._metadata.error_code ≠ ERROR_CODE_TIMEOUT ∧
    last_num_samps burst_end_out.2 = 64 ∧
    (∀ i, tags_on (new_tags burst_end.tags burst_end_out.2) i EOB_KEY
      = if i < burst_end._nchan then 1 else 0) ∧
    (∀ t ∈ new_tags burst_end.tags burst_end_out.2, t.key = EOB_KEY →
      t.abs_offset = eob_offset (written_10 t.which_output) (last_num_samps burst_end_out.2)) ∧
    eob_offset (written_10 0) (last_num_samps burst_end_out.2) = 73 ∧
    burst_end_out.2._tag_now = true :=
  have hw := work_eob_adds_tag (scripted ERROR_CODE_TIMEOUT) written_10 1 500
    burst_end burst_end_out.1 burst_end_out.2 rfl rfl (by decide)
  ⟨rfl, rfl, by decide, rfl, hw.2.2.2.1, hw.2.2.2.2.1, by decide, hw.2.2.2.2.2.2.2⟩

/-! ## C3: the flag after an overflow -/

/-- C3, as stated, fails: the first receive is classified overflow, the
retried cycle receives 64 samples without error, and `work` returns with the
tag flag false. -/
theorem work_overflow_then_none_clears_flag :
    work (scripted ERROR_CODE_TIMEOUT) written_10 2 500 overflow_then_none
      = .ok (overflow_then_none_out.1, overflow_then_none_out.2) ∧
    overflow_then_none_out.2.reentries = overflow_then_none.reentries + 1 ∧
    overflow_then_none_out.2._tag_now = false := by
  refine ⟨rfl, rfl, rfl⟩

/-- C3 (amended): when a receive of a call of `work` was classified overflow
(the call re-entered itself), the retried cycle runs with the tag flag set:
if the final receive has error code none the TIME/RATE/FREQ bundle is added,
and the flag on return is false exactly when that final receive has error
code none and no `end_of_burst`; in every other case it is true. -/
theorem work_after_overflow_flag (drv : multi_usrp σ τ) (nw : Nat → Nat) (fuel n : Nat)
    (s : usrp_source_impl σ τ) (r : Int) (s' : usrp_source_impl σ τ)
    (h : work drv nw fuel n s = .ok (r, s'))
    (hov : s.reentries < s'.reentries) :
    (s'._metadata.error_code = ERROR_CODE_NONE →
      s'.tags = s.tags ++ time_rate_freq_tags drv s' (nw 0)
        ++ (if s'._metadata.end_of_burst = true then eob_tags s' nw (last_num_samps s')
            else [])) ∧
    (s'._metadata.error_code = ERROR_CODE_NONE → s'._metadata.end_of_burst = false →
      s'._tag_now = false) ∧
    (s'._metadata.error_code ≠ ERROR_CODE_NONE ∨ s'._metadata.end_of_burst = true →
      s'._tag_now = true) := by
  obtain ⟨_, _, _, ht, hn, _⟩ := work_spec drv nw fuel n s r s' h
  refine ⟨?_, ?_, ?_⟩
  · intro hN
    rw [ht]; simp [hN, hov]
  · intro hN hb
    rw [hn]; simp [hN, hb]
  · intro hcase
    rw [hn]
    by_cases hN : s'._metadata.error_code = ERROR_CODE_NONE
    · rcases hcase with hc | hc
      · exact absurd hN hc
      · simp [hN, hc]
    · by_cases hT : s'._metadata.error_code = ERROR_CODE_TIMEOUT
      · simp [hT, hov]
      · simp [hN, hT, hov]

/-- An overflow followed by 64 samples without error, as an instance of C3
(amended): one re-entry, the bundle is added, the flag is false on return. -/
theorem work_after_overflow_flag_witness :
    work (scripted ERROR_CODE_TIMEOUT) written_10 2 500 overflow_then_none
      = .ok (overflow_then_none_out.1, overflow_then_none_out.2) ∧
    overflow_then_none.reentries < overflow_then_none_out.2.reentries ∧
    overflow_then_none._tag_now = false ∧
    overflow_then_none_out.2.tags
      = overflow_then_none.tags
        ++ time_rate_freq_tags (scripted ERROR_CODE_TIMEOUT) overflow_then_none_out.2
            (written_10 0)
        ++ (if overflow_then_none_out.2._metadata.end_of_burst = true
            then eob_tags overflow_then_none_out.2 written_10
              (last_num_samps overflow_then_none_out.2)
            else []) ∧
    overflow_then_none_out.2._tag_now = false :=
  have hw := work_after_overflow_flag (scripted ERROR_CODE_TIMEOUT) written_10 2 500
    overflow_then_none overflow_then_none_out.1 overflow_then_none_out.2 rfl (by decide)
  ⟨rfl, by decide, rfl, hw.1 rfl, hw.2.1 rfl rfl⟩

/-! ## C10: a cycle that times out -/

/-- C10: when the receives at the head of a call of `work` end classified
timeout (the first receive and its single retry both time out, no overflow
before), the call returns 0, adds no tag on any channel, whatever
`end_of_burst` says, and leaves the tag flag as it was on entry. -/
theorem work_timeout_returns_zero (drv : multi_usrp σ τ) (nw : Nat → Nat) (fuel n : Nat)
    (s : usrp_source_impl σ τ) (hrx : s._rx_stream = true)
    (hto : (recv_stage drv n s).2._metadata.error_code = ERROR_CODE_TIMEOUT) :
    work drv nw (fuel + 1) n s = .ok (0, (recv_stage drv n s).2) ∧
    (recv_stage drv n s).2.tags = s.tags ∧
    (recv_stage drv n s).2._tag_now = s._tag_now ∧
    (recv_stage drv n s).2.reentries = s.reentries ∧
    (drv.recv s.dev { nsamps_per_buff := n, timeout_ms := 0, one_packet := false }).1.md.error_code
      = ERROR_CODE_TIMEOUT := by
  obtain ⟨_, ht, htn, hre, _⟩ := recv_stage_frame drv n s
  refine ⟨?_, ht, htn, hre, ?_⟩
  · rw [work_succ drv nw fuel n s hrx]
    simp only [hto]
  · by_contra hne
    have : (recv_stage drv n s).2._metadata.error_code
        = (drv.recv s.dev { nsamps_per_buff := n, timeout_ms := 0,
                            one_packet := false }).1.md.error_code := by
      simp [recv_stage, rx_recv, hne]
    exact hne (this ▸ hto)

/-- An idle device whose retry metadata carries `end_of_burst`, the tag flag
set, as an instance of C10. -/
theorem work_timeout_returns_zero_witness :
    (idle_with_eob true)._rx_stream = true ∧
    (recv_stage (scripted ERROR_CODE_TIMEOUT) 500 (idle_with_eob true)).2._metadata.error_code
      = ERROR_CODE_TIMEOUT ∧
    (recv_stage (scripted ERROR_CODE_TIMEOUT) 500 (idle_with_eob true)).2._metadata.end_of_burst
      = true ∧
    work (scripted ERROR_CODE_TIMEOUT) written_10 1 500 (idle_with_eob true)
      = .ok (0, (recv_stage (scripted ERROR_CODE_TIMEOUT) 500 (idle_with_eob true)).2) ∧
    (recv_stage (scripted ERROR_CODE_TIMEOUT) 500 (idle_with_eob true)).2.tags = [] ∧
    (recv_stage (scripted ERROR_CODE_TIMEOUT) 500 (idle_with_eob true)).2._tag_now = true :=
  have hw := work_timeout_returns_zero (scripted ERROR_CODE_TIMEOUT) written_10 0 500
    (idle_with_eob true) rfl rfl
  ⟨rfl, rfl, rfl, hw.1, hw.2.1, hw.2.2.1⟩

/-! ## C4: re-entries on overflow -/

/-- The state of a re-entry keeps the session and counts one more re-entry. -/
theorem overflow_reentry_frame (drv : multi_usrp σ τ) (n : Nat) (s : usrp_source_impl σ τ) :
    (overflow_reentry drv n s)._rx_stream = s._rx_stream ∧
    (overflow_reentry drv n s).reentries = s.reentries + 1 ∧
    (overflow_reentry drv n s)._tag_now = true := by
  obtain ⟨hc, _, _, hre, _⟩ := recv_stage_frame drv n s
  refine ⟨?_, ?_, rfl⟩
  · simpa [overflow_reentry] using hc.2.2.1
  · simp [overflow_reentry, hre]

/-- A cycle that is not classified overflow ends the call without a re-entry. -/
theorem work_returns_without_overflow (drv : multi_usrp σ τ) (nw : Nat → Nat) (fuel n : Nat)
    (s : usrp_source_impl σ τ) (hrx : s._rx_stream = true)
    (hlast : (recv_stage drv n s).2._metadata.error_code ≠ ERROR_CODE_OVERFLOW) :
    ∃ r s', work drv nw (fuel + 1) n s = .ok (r, s') ∧ s'.reentries = s.reentries := by
  obtain ⟨_, _, _, hre, _⟩ := recv_stage_frame drv n s
  rw [work_succ drv nw fuel n s hrx]
  cases hE : (recv_stage drv n s).2._metadata.error_code with
  | ERROR_CODE_OVERFLOW => exact absurd hE hlast
  | ERROR_CODE_TIMEOUT => exact ⟨_, _, rfl, hre⟩
  | ERROR_CODE_OTHER =>
    refine ⟨(after_switch nw (recv_stage drv n s).1.num_samps (recv_stage drv n s).2).1,
      (after_switch nw (recv_stage drv n s).1.num_samps (recv_stage drv n s).2).2, rfl, ?_⟩
    rw [(after_switch_spec nw _ _).2.2.1, hre]
  | ERROR_CODE_NONE =>
    generalize hs2 : (if (recv_stage drv n s).2._tag_now then
            { (recv_stage drv n s).2 with
                _tag_now := false,
                tags := (recv_stage drv n s).2.tags
                  ++ time_rate_freq_tags drv (recv_stage drv n s).2 (nw 0) }
           else (recv_stage drv n s).2) = s2
    have h2 : s2.reentries = s.reentries := by
      rw [← hs2]
      split <;> simp [hre]
    refine ⟨(after_switch nw (recv_stage drv n s).1.num_samps s2).1,
      (after_switch nw (recv_stage drv n s).1.num_samps s2).2, rfl, ?_⟩
    rw [(after_switch_spec nw _ _).2.2.1, h2]

/-- One re-entry per overflow: after `k` cycles classified overflow and one
that is not, `work` has returned and re-entered itself `k` times. -/
theorem work_reenters_per_overflow (drv : multi_usrp σ τ) (nw : Nat → Nat) (n : Nat) :
    ∀ (k : Nat) (s : usrp_source_impl σ τ), s._rx_stream = true →
    (∀ j, j < k → (recv_stage drv n (reentry_state drv n j s)).2._metadata.error_code
      = ERROR_CODE_OVERFLOW) →
    (recv_stage drv n (reentry_state drv n k s)).2._metadata.error_code ≠ ERROR_CODE_OVERFLOW →
    ∃ r s', work drv nw (k + 1) n s = .ok (r, s') ∧ s'.reentries = s.reentries + k := by
  intro k
  induction k with
  | zero =>
    intro s hrx _ hlast
    exact work_returns_without_overflow drv nw 0 n s hrx hlast
  | succ k ih =>
    intro s hrx hov hlast
    obtain ⟨f1, f2, _⟩ := overflow_reentry_frame drv n s
    have h0 : (recv_stage drv n s).2._metadata.error_code = ERROR_CODE_OVERFLOW :=
      hov 0 (Nat.succ_pos k)
    obtain ⟨r, s', hw, hr⟩ := ih (overflow_reentry drv n s) (f1.trans hrx)
      (fun j hj => hov (j + 1) (Nat.succ_lt_succ hj)) hlast
    refine ⟨r, s', ?_, ?_⟩
    · rw [work_succ drv nw (k + 1) n s hrx]
      simp only [h0]
      exact hw
    · rw [hr, f2]; omega

/-- With no more fuel than overflows, `work` has not returned. -/
theorem work_needs_fuel_per_overflow (drv : multi_usrp σ τ) (nw : Nat → Nat) (n : Nat) :
    ∀ (fuel k : Nat) (s : usrp_source_impl σ τ), s._rx_stream = true → fuel ≤ k →
    (∀ j, j < k → (recv_stage drv n (reentry_state drv n j s)).2._metadata.error_code
      = ERROR_CODE_OVERFLOW) →
    work drv nw fuel n s = .error fault.out_of_fuel := by
  intro fuel
  induction fuel with
  | zero => intro k s _ _ _; rfl
  | succ fuel ih =>
    intro k s hrx hk hov
    obtain ⟨f1, _, _⟩ := overflow_reentry_frame drv n s
    have h0 : (recv_stage drv n s).2._metadata.error_code = ERROR_CODE_OVERFLOW :=
      hov 0 (by omega)
    rw [work_succ drv nw fuel n s hrx]
    simp only [h0]
    exact ih (k - 1) (overflow_reentry drv n s) (f1.trans hrx) (by omega)
      (fun j hj => hov (j + 1) (by omega))

/-- On the scripted device that answers overflow when its queue is empty,
every cycle from an empty queue is classified overflow. -/
theorem always_overflow_cycles (n : Nat) :
    ∀ (j : Nat) (s : usrp_source_impl script_dev Nat), s.dev.queue = [] →
    (recv_stage (scripted ERROR_CODE_OVERFLOW) n
      (reentry_state (scripted ERROR_CODE_OVERFLOW) n j s)).2._metadata.error_code
      = ERROR_CODE_OVERFLOW := by
  intro j
  induction j with
  | zero =>
    intro s hq
    simp [reentry_state, recv_stage, rx_recv, scripted, hq]
  | succ j ih =>
    intro s hq
    simp only [reentry_state]
    apply ih
    simp [overflow_reentry, recv_stage, rx_recv, scripted, hq]

/-- C4, as stated, fails: on a device that reports an overflow on every
receive, `work` never returns, whatever the fuel; there is no retry bound. -/
theorem work_never_returns_on_permanent_overflow :
    (∀ a, ((scripted ERROR_CODE_OVERFLOW).recv always_overflow.dev a).1.md.error_code
        = ERROR_CODE_OVERFLOW ∧
      ((scripted ERROR_CODE_OVERFLOW).recv always_overflow.dev a).2 = always_overflow.dev) ∧
    ∀ fuel : Nat,
      work (scripted ERROR_CODE_OVERFLOW) written_10 fuel 500 always_overflow
        = .error fault.out_of_fuel := by
  refine ⟨fun a => ⟨rfl, rfl⟩, fun fuel => ?_⟩
  exact work_needs_fuel_per_overflow (scripted ERROR_CODE_OVERFLOW) written_10 500 fuel fuel
    always_overflow rfl (Nat.le_refl fuel)
    (fun j _ => always_overflow_cycles 500 j always_overflow rfl)

/-- C4 (amended): `work` re-enters itself once for every cycle classified
overflow and has no bound on that number: when the first `k` cycles are
classified overflow and the next one is not, the call returns with `k + 1`
units of fuel, after exactly `k` re-entries, and with `k` units or fewer it
has not returned. -/
theorem work_reentries_equal_overflows (drv : multi_usrp σ τ) (nw : Nat → Nat) (n k : Nat)
    (s : usrp_source_impl σ τ) (hrx : s._rx_stream = true)
    (hov : ∀ j, j < k → (recv_stage drv n (reentry_state drv n j s)).2._metadata.error_code
      = ERROR_CODE_OVERFLOW)
    (hlast : (recv_stage drv n (reentry_state drv n k s)).2._metadata.error_code
      ≠ ERROR_CODE_OVERFLOW) :
    (∃ r s', work drv nw (k + 1) n s = .ok (r, s') ∧ s'.reentries = s.reentries + k) ∧
    (∀ fuel, fuel ≤ k → work drv nw fuel n s = .error fault.out_of_fuel) :=
  ⟨work_reenters_per_overflow drv nw n k s hrx hov hlast,
    fun fuel hf => work_needs_fuel_per_overflow drv nw n fuel k s hrx hf hov⟩

/-- Three overflows and then 64 samples, as an instance of C4 (amended): the
call returns with four units of fuel after three re-entries. -/
theorem work_reentries_equal_overflows_witness :
    (overflows_then_none 3)._rx_stream = true ∧
    (∀ j, j < 3 →
      (recv_stage (scripted ERROR_CODE_TIMEOUT) 500
        (reentry_state (scripted ERROR_CODE_TIMEOUT) 500 j
          (overflows_then_none 3))).2._metadata.error_code = ERROR_CODE_OVERFLOW) ∧
    (recv_stage (scripted ERROR_CODE_TIMEOUT) 500
        (reentry_state (scripted ERROR_CODE_TIMEOUT) 500 3
          (overflows_then_none 3))).2._metadata.error_code ≠ ERROR_CODE_OVERFLOW ∧
    ((∃ r s', work (scripted ERROR_CODE_TIMEOUT) written_10 (3 + 1) 500 (overflows_then_none 3)
        = .ok (r, s') ∧ s'.reentries = (overflows_then_none 3).reentries + 3) ∧
      (∀ fuel, fuel ≤ 3 →
        work (scripted ERROR_CODE_TIMEOUT) written_10 fuel 500 (overflows_then_none 3)
          = .error fault.out_of_fuel)) :=
  have hov : ∀ j, j < 3 →
      (recv_stage (scripted ERROR_CODE_TIMEOUT) 500
        (reentry_state (scripted ERROR_CODE_TIMEOUT) 500 j
          (overflows_then_none 3))).2._metadata.error_code = ERROR_CODE_OVERFLOW := by
    intro j hj
    interval_cases j <;> rfl
  ⟨rfl, hov, by decide,
    work_reentries_equal_overflows (scripted ERROR_CODE_TIMEOUT) written_10 500 3
      (overflows_then_none 3) rfl hov (by decide)⟩

/-! ## C5: `stop` without a session -/

/-- C5 (code bug): on a block without a session (`_rx_stream` unset) `stop`
does not return `true`: it sends the stop command to every channel and then
`flush` dereferences the unset `_rx_stream`. -/
theorem stop_without_session_faults (drv : multi_usrp σ τ) (fuel : Nat)
    (s : usrp_source_impl σ τ) :
    stop drv (fuel + 1) { s with _rx_stream := false } = .error fault.null_rx_stream ∧
    (issue_stream_cmd drv (stream_cmd_t.make drv STREAM_MODE_STOP_CONTINUOUS)
        { s with _rx_stream := false }).cmds
      = s.cmds ++ s.channels.map
          (fun c => (stream_cmd_t.make drv STREAM_MODE_STOP_CONTINUOUS, c)) := by
  constructor
  · unfold stop
    rw [issue_stream_cmd_eq]
    simp [flush]
  · rw [issue_stream_cmd_eq]

/-! ## C9: the one-shot start time -/

/-- The commands of one `start`: a continuous start on every channel, with
`stream_now` as stored, at the stored start time when one is pending and at
the device time plus `reasonable_delay` otherwise. -/
theorem start_eq (drv : multi_usrp σ τ) (s : usrp_source_impl σ τ) :
    (start drv s).1 = true ∧ (start drv s).2._tag_now = true ∧
    (start drv s).2._start_time_set = false ∧ (start drv s).2._rx_stream = true ∧
    (start drv s).2._stream_now = s._stream_now ∧
    (start drv s).2._start_time = s._start_time ∧
    (start drv s).2.channels = s.channels ∧
    (start drv s).2._nchan = s._nchan ∧
    (start drv s).2.tags = s.tags ∧
    (start drv s).2.cmds = s.cmds ++ s.channels.map (fun c =>
      ({ stream_mode := STREAM_MODE_START_CONTINUOUS, num_samps := 0,
         stream_now := s._stream_now,
         time_spec :=
           if s._start_time_set then s._start_time
           else drv.time_add
             (drv.get_time_now (if s._rx_stream then s.dev else drv.get_rx_stream s.dev))
             (drv.time_spec_t reasonable_delay) }, c)) := by
  unfold start
  cases h1 : s._rx_stream <;> cases h2 : s._start_time_set <;>
    simp [issue_stream_cmd_eq, stream_cmd_t.make, h1, h2]

/-- C9: after `set_start_time(t)` the next `start` sends its continuous-start
command with `time_spec = t` and `stream_now` false to every channel and
clears the pending time; a further `start` sends a command whose `time_spec`
is the device time plus `reasonable_delay`, whatever `t` was; every `start`
sets the tag flag and returns `true`. -/
theorem start_consumes_start_time_once (drv : multi_usrp σ τ) (t : τ)
    (s : usrp_source_impl σ τ) :
    (set_start_time t s)._start_time_set = true ∧
    (start drv (set_start_time t s)).2.cmds
      = s.cmds ++ s.channels.map (fun c =>
          ({ stream_mode := STREAM_MODE_START_CONTINUOUS, num_samps := 0,
             stream_now := false, time_spec := t }, c)) ∧
    (start drv (set_start_time t s)).2._start_time_set = false ∧
    (start drv (start drv (set_start_time t s)).2).2.cmds
      = (start drv (set_start_time t s)).2.cmds ++ s.channels.map (fun c =>
          ({ stream_mode := STREAM_MODE_START_CONTINUOUS, num_samps := 0,
             stream_now := false,
             time_spec := drv.time_add (drv.get_time_now (start drv (set_start_time t s)).2.dev)
               (drv.time_spec_t reasonable_delay) }, c)) ∧
    (start drv (start drv (set_start_time t s)).2).2._start_time_set = false ∧
    (∀ s0 : usrp_source_impl σ τ,
      (start drv s0).1 = true ∧ (start drv s0).2._tag_now = true ∧
      (start drv s0).2._start_time_set = false) := by
  obtain ⟨_, _, a3, a4, a5, _, a7, _, _, a10⟩ := start_eq drv (set_start_time t s)
  obtain ⟨_, _, b3, _, _, _, _, _, _, b10⟩ := start_eq drv (start drv (set_start_time t s)).2
  refine ⟨rfl, ?_, a3, ?_, b3, ?_⟩
  · rw [a10]; simp [set_start_time]
  · rw [b10, a3, a4, a5, a7]; simp [set_start_time]
  · intro s0
    obtain ⟨c1, c2, c3, _⟩ := start_eq drv s0
    exact ⟨c1, c2, c3⟩

/-! ## `flush` and `finite_acquisition_v` -/

/-- A returning `flush` moved only the device, `_metadata` and the receive
log, and its last receive timed out. -/
theorem flush_frame (drv : multi_usrp σ τ) :
    ∀ (fuel : Nat) (s s' : usrp_source_impl σ τ), flush drv fuel s = .ok s' →
    same_config s s' ∧ s'.tags = s.tags ∧ s'._tag_now = s._tag_now ∧
    s'.reentries = s.reentries ∧ s'._metadata.error_code = ERROR_CODE_TIMEOUT := by
  intro fuel
  induction fuel with
  | zero => intro s s' h; simp [flush] at h
  | succ fuel ih =>
    intro s s' h
    obtain ⟨hc, ht, htn, hre, _⟩ := rx_recv_frame drv (flush_args drv) s
    cases hrx : s._rx_stream with
    | false => simp [flush, hrx] at h
    | true =>
      simp only [flush, hrx, Bool.not_true, Bool.false_eq_true, ↓reduceIte] at h
      by_cases hE : (rx_recv drv (flush_args drv) s).2._metadata.error_code = ERROR_CODE_TIMEOUT
      · simp only [hE, ↓reduceIte] at h
        injection h with h
        subst h
        exact ⟨hc, ht, htn, hre, hE⟩
      · simp only [hE, ↓reduceIte] at h
        obtain ⟨kc, kt, ktn, kre, kE⟩ := ih _ s' h
        exact ⟨same_config_trans hc kc, kt.trans ht, ktn.trans htn, kre.trans hre, kE⟩

/-- More fuel does not change the result of a returning `flush`. -/
theorem flush_mono (drv : multi_usrp σ τ) (m : Nat) :
    ∀ (fuel : Nat) (s s' : usrp_source_impl σ τ), flush drv fuel s = .ok s' →
    flush drv (fuel + m) s = .ok s' := by
  intro fuel
  induction fuel with
  | zero => intro s s' h; simp [flush] at h
  | succ fuel ih =>
    intro s s' h
    rw [Nat.succ_add_eq_add_succ, Nat.add_succ]
    cases hrx : s._rx_stream with
    | false => simp [flush, hrx] at h
    | true =>
      simp only [flush, hrx, Bool.not_true, Bool.false_eq_true, ↓reduceIte] at h ⊢
      by_cases hE : (rx_recv drv (flush_args drv) s).2._metadata.error_code = ERROR_CODE_TIMEOUT
      · simp only [hE, ↓reduceIte] at h ⊢
        exact h
      · simp only [hE, ↓reduceIte] at h ⊢
        exact ih _ s' h

/-- When the `k`-th further receive of `flush` times out, `flush` returns
with `k + 1` units of fuel. -/
theorem flush_returns_after (drv : multi_usrp σ τ) :
    ∀ (k : Nat) (s : usrp_source_impl σ τ), s._rx_stream = true →
    (drv.recv (after_flush_recvs drv k s.dev) (flush_args drv)).1.md.error_code
      = ERROR_CODE_TIMEOUT →
    ∃ s', flush drv (k + 1) s = .ok s' := by
  intro k
  induction k with
  | zero =>
    intro s hrx hk
    have hE : (rx_recv drv (flush_args drv) s).2._metadata.error_code = ERROR_CODE_TIMEOUT := hk
    exact ⟨(rx_recv drv (flush_args drv) s).2,
      by simp only [flush, hrx, Bool.not_true, Bool.false_eq_true, ↓reduceIte, hE]⟩
  | succ k ih =>
    intro s hrx hk
    by_cases hE : (rx_recv drv (flush_args drv) s).2._metadata.error_code = ERROR_CODE_TIMEOUT
    · exact ⟨(rx_recv drv (flush_args drv) s).2,
        by simp only [flush, hrx, Bool.not_true, Bool.false_eq_true, ↓reduceIte, hE]⟩
    · have hrx1 : (rx_recv drv (flush_args drv) s).2._rx_stream = true := hrx
      obtain ⟨s', hs'⟩ := ih (rx_recv drv (flush_args drv) s).2 hrx1 hk
      refine ⟨s', ?_⟩
      rw [flush]
      simp only [hrx, Bool.not_true, Bool.false_eq_true, ↓reduceIte, hE]
      exact hs'

/-- On a device that drains, `flush` returns from every state with a session. -/
theorem flush_terminates (drv : multi_usrp σ τ) (hd : Drains drv) (s : usrp_source_impl σ τ)
    (hrx : s._rx_stream = true) :
    ∃ fuel s', flush drv fuel s = .ok s' := by
  obtain ⟨k, hk⟩ := hd s.dev
  obtain ⟨s', hs'⟩ := flush_returns_after drv k s hrx hk
  exact ⟨k + 1, s', hs'⟩

/-- With a session, `finite_acquisition_v` is the flush followed by `acquire`. -/
theorem finite_acquisition_v_session (drv : multi_usrp σ τ) (fuel N : Nat)
    (s : usrp_source_impl σ τ) (hrx : s._rx_stream = true) :
    finite_acquisition_v drv fuel N s =
      match flush drv fuel s with
      | .error e => .error e
      | .ok s2 => .ok (acquire drv N s._nchan s2) := by
  simp only [finite_acquisition_v, hrx, Bool.not_true, Bool.false_eq_true, ↓reduceIte]
  rfl

/-- Without a session, `finite_acquisition_v` is `start`, `stop`, the flush
and `acquire`. -/
theorem finite_acquisition_v_no_session (drv : multi_usrp σ τ) (fuel N : Nat)
    (s : usrp_source_impl σ τ) (hrx : s._rx_stream = false) :
    finite_acquisition_v drv fuel N s =
      match flush drv fuel
          (issue_stream_cmd drv (stream_cmd_t.make drv STREAM_MODE_STOP_CONTINUOUS)
            (start drv s).2) with
      | .error e => .error e
      | .ok s0 =>
        match flush drv fuel s0 with
        | .error e => .error e
        | .ok s2 => .ok (acquire drv N s._nchan s2) := by
  simp only [finite_acquisition_v, hrx, Bool.not_false, ↓reduceIte, stop]
  cases flush drv fuel
      (issue_stream_cmd drv (stream_cmd_t.make drv STREAM_MODE_STOP_CONTINUOUS)
        (start drv s).2) with
  | error e => rfl
  | ok s0 => rfl

/-- What `acquire` does: the command goes to every channel with the device
time plus `reasonable_delay`, one receive of up to `N` samples with timeout
`1.0` follows, and every buffer is cut to the count it returned. -/
theorem acquire_spec (drv : multi_usrp σ τ) (N nchan : Nat) (s2 : usrp_source_impl σ τ) :
    (acquire drv N nchan s2).1.length = nchan ∧
    (∀ v ∈ (acquire drv N nchan s2).1, v.length = last_num_samps (acquire drv N nchan s2).2) ∧
    (∃ l, (acquire drv N nchan s2).2.rx_log
      = { args := { nsamps_per_buff := N, timeout_ms := 1000, one_packet := false },
          num_samps := last_num_samps (acquire drv N nchan s2).2,
          md := (acquire drv N nchan s2).2._metadata } :: l) ∧
    (∃ d, last_num_samps (acquire drv N nchan s2).2
      = (drv.recv d { nsamps_per_buff := N, timeout_ms := 1000,
                      one_packet := false }).1.num_samps) ∧
    (acquire drv N nchan s2).2.cmds
      = s2.cmds ++ s2.channels.map (fun c => (finite_cmd drv N s2._stream_now s2.dev, c)) ∧
    (acquire drv N nchan s2).2.tags = s2.tags ∧
    (acquire drv N nchan s2).2._tag_now = s2._tag_now ∧
    (acquire drv N nchan s2).2._start_time_set = s2._start_time_set ∧
    (acquire drv N nchan s2).2._start_time = s2._start_time := by
  refine ⟨by simp [acquire], ?_, ⟨_, rfl⟩, ⟨_, rfl⟩, ?_, ?_, ?_, ?_, ?_⟩
  · intro v hv
    simp only [acquire, List.mem_map, List.mem_range] at hv
    obtain ⟨i, _, rfl⟩ := hv
    simp [resized_buffer, acquire, rx_recv, last_num_samps]
  · simp [acquire, issue_stream_cmd_eq, rx_recv]
  · simp [acquire, issue_stream_cmd_eq, rx_recv]
  · simp [acquire, issue_stream_cmd_eq, rx_recv]
  · simp [acquire, issue_stream_cmd_eq, rx_recv]
  · simp [acquire, issue_stream_cmd_eq, rx_recv]

/-- The state in which `finite_acquisition_v` starts its flush: the entry
state when a session exists, the state `stop` left after `start` otherwise. -/
theorem finite_acquisition_v_returns (drv : multi_usrp σ τ) (hd : Drains drv) (N : Nat)
    (s : usrp_source_impl σ τ) :
    ∃ fuel s0 s2,
      (s._rx_stream = true → s0 = s) ∧
      (s._rx_stream = false →
        flush drv fuel
          (issue_stream_cmd drv (stream_cmd_t.make drv STREAM_MODE_STOP_CONTINUOUS)
            (start drv s).2) = .ok s0) ∧
      flush drv fuel s0 = .ok s2 ∧
      finite_acquisition_v drv fuel N s = .ok (acquire drv N s._nchan s2) := by
  cases hrx : s._rx_stream with
  | true =>
    obtain ⟨fuel, s2, h2⟩ := flush_terminates drv hd s hrx
    refine ⟨fuel, s, s2, fun _ => rfl, fun h => by simp at h, h2, ?_⟩
    rw [finite_acquisition_v_session drv fuel N s hrx, h2]
  | false =>
    have hb : (issue_stream_cmd drv (stream_cmd_t.make drv STREAM_MODE_STOP_CONTINUOUS)
        (start drv s).2)._rx_stream = true := by
      rw [issue_stream_cmd_eq]
      exact (start_eq drv s).2.2.2.1
    obtain ⟨f1, s0, h0⟩ := flush_terminates drv hd _ hb
    have h0rx : s0._rx_stream = true := by
      rw [(flush_frame drv f1 _ s0 h0).1.2.2.1]; exact hb
    obtain ⟨f2, s2, h2⟩ := flush_terminates drv hd s0 h0rx
    have h0' := flush_mono drv f2 f1 _ s0 h0
    have h2' := flush_mono drv f1 f2 _ s2 h2
    rw [Nat.add_comm] at h2'
    refine ⟨f1 + f2, s0, s2, fun h => by simp at h, fun _ => h0', h2', ?_⟩
    rw [finite_acquisition_v_no_session drv (f1 + f2) N s hrx, h0']
    simp only [h2']

/-- More fuel does not change the result of a returning
`finite_acquisition_v`. -/
theorem finite_acquisition_v_mono (drv : multi_usrp σ τ) (fuel m N : Nat)
    (s : usrp_source_impl σ τ) (out : List (List gr_complex) × usrp_source_impl σ τ)
    (h : finite_acquisition_v drv fuel N s = .ok out) :
    finite_acquisition_v drv (fuel + m) N s = .ok out := by
  cases hrx : s._rx_stream with
  | true =>
    rw [finite_acquisition_v_session drv _ N s hrx] at h ⊢
    cases hf : flush drv fuel s with
    | error e => simp [hf] at h
    | ok s2 =>
      rw [flush_mono drv m fuel s s2 hf]
      simpa [hf] using h
  | false =>
    rw [finite_acquisition_v_no_session drv _ N s hrx] at h ⊢
    cases hf : flush drv fuel
        (issue_stream_cmd drv (stream_cmd_t.make drv STREAM_MODE_STOP_CONTINUOUS)
          (start drv s).2) with
    | error e => simp [hf] at h
    | ok s0 =>
      rw [flush_mono drv m fuel _ s0 hf]
      simp only [hf] at h ⊢
      cases hg : flush drv fuel s0 with
      | error e => simp [hg] at h
      | ok s2 =>
        rw [flush_mono drv m fuel s0 s2 hg]
        simpa [hg] using h

/-- The result of `finite_acquisition_v` does not depend on the fuel. -/
theorem finite_acquisition_v_unique (drv : multi_usrp σ τ) (f1 f2 N : Nat)
    (s : usrp_source_impl σ τ) (o1 o2 : List (List gr_complex) × usrp_source_impl σ τ)
    (h1 : finite_acquisition_v drv f1 N s = .ok o1)
    (h2 : finite_acquisition_v drv f2 N s = .ok o2) : o2 = o1 := by
  have a := finite_acquisition_v_mono drv f1 f2 N s o1 h1
  have b := finite_acquisition_v_mono drv f2 f1 N s o2 h2
  rw [Nat.add_comm] at b
  rw [a] at b
  injection b with b
  exact b.symm

/-- The scripted device with idle answer timeout drains. -/
theorem scripted_drains : Drains (scripted ERROR_CODE_TIMEOUT) := by
  intro d
  obtain ⟨q, now⟩ := d
  induction q with
  | nil => exact ⟨0, rfl⟩
  | cons a q ih =>
    obtain ⟨k, hk⟩ := ih
    exact ⟨k + 1, hk⟩

/-- The scripted device never gives more samples than asked for. -/
theorem scripted_count_le (idle : error_code_t) (d : script_dev) (a : recv_args) :
    ((scripted idle).recv d a).1.num_samps ≤ a.nsamps_per_buff := by
  obtain ⟨q, now⟩ := d
  cases q with
  | nil => simp [scripted]
  | cons x q => simp [scripted]

/-- On the scripted device that answers error code none when its queue is
empty, `flush` from an empty queue never returns. -/
theorem flush_never_returns (fuel : Nat) :
    ∀ s : usrp_source_impl script_dev Nat, s._rx_stream = true → s.dev.queue = [] →
    flush (scripted ERROR_CODE_NONE) fuel s = .error fault.out_of_fuel := by
  induction fuel with
  | zero => intro s _ _; rfl
  | succ fuel ih =>
    intro s hrx hq
    rw [flush]
    simp only [hrx, Bool.not_true, Bool.false_eq_true, ↓reduceIte]
    have hE : (rx_recv (scripted ERROR_CODE_NONE)
        (flush_args (scripted ERROR_CODE_NONE)) s).2._metadata.error_code
          = ERROR_CODE_NONE := by
      simp [rx_recv, scripted, hq]
    simp only [hE, reduceCtorEq, ↓reduceIte]
    apply ih
    · exact hrx
    · simp [rx_recv, scripted, hq]

/-! ## C6: the lengths `finite_acquisition_v` returns -/

/-- C6, as stated, fails: on a device that answers every receive with zero
samples and error code none (a count of at most `N`, no timeout ever), the
flush of `finite_acquisition_v` never ends, so no sequences are returned,
whatever the fuel. -/
theorem finite_acquisition_v_never_returns_without_timeout :
    (∀ a, ((scripted ERROR_CODE_NONE).recv never_idle.dev a).1.num_samps = 0 ∧
      ((scripted ERROR_CODE_NONE).recv never_idle.dev a).2 = never_idle.dev) ∧
    ∀ fuel : Nat,
      finite_acquisition_v (scripted ERROR_CODE_NONE) fuel 1000 never_idle
        = .error fault.out_of_fuel := by
  refine ⟨fun a => ⟨rfl, rfl⟩, fun fuel => ?_⟩
  rw [finite_acquisition_v_session _ fuel 1000 never_idle rfl,
    flush_never_returns fuel never_idle rfl rfl]

/-- C6 (amended): on a device that drains (its flush receives end in a
timeout) and never gives more samples than asked for, `finite_acquisition_v(N)`
with `N > 0` returns, with enough fuel, exactly `_nchan` sequences that all
have the length `L` of the count returned by its single receive of up to `N`
samples with timeout `1.0`, and `L ≤ N`; the result is the same for every
fuel with which it returns. -/
theorem finite_acquisition_v_equal_lengths (drv : multi_usrp σ τ) (hd : Drains drv)
    (hcount : ∀ d a, (drv.recv d a).1.num_samps ≤ a.nsamps_per_buff)
    (N : Nat) (_hN : 0 < N) (s : usrp_source_impl σ τ) :
    ∃ fuel samps s',
      finite_acquisition_v drv fuel N s = .ok (samps, s') ∧
      samps.length = s._nchan ∧
      (∀ v ∈ samps, v.length = last_num_samps s') ∧
      last_num_samps s' ≤ N ∧
      (∃ l, s'.rx_log
        = { args := { nsamps_per_buff := N, timeout_ms := 1000, one_packet := false },
            num_samps := last_num_samps s', md := s'._metadata } :: l) ∧
      (∀ fuel2 out, finite_acquisition_v drv fuel2 N s = .ok out → out = (samps, s')) := by
  obtain ⟨fuel, s0, s2, _, _, _, hfa⟩ := finite_acquisition_v_returns drv hd N s
  obtain ⟨a1, a2, a3, ⟨d, a4⟩, _⟩ := acquire_spec drv N s._nchan s2
  refine ⟨fuel, (acquire drv N s._nchan s2).1, (acquire drv N s._nchan s2).2, hfa, a1, a2,
    ?_, a3, ?_⟩
  · rw [a4]
    exact hcount d _
  · intro fuel2 out hout
    exact finite_acquisition_v_unique drv fuel fuel2 N s _ out hfa hout

/-- Scenario A as an instance of C6 (amended): two channels, `N = 1000`, the
device delivers 1000 samples, both sequences have length 1000. -/
theorem finite_acquisition_v_equal_lengths_witness :
    Drains (scripted ERROR_CODE_TIMEOUT) ∧
    (∀ d a, ((scripted ERROR_CODE_TIMEOUT).recv d a).1.num_samps ≤ a.nsamps_per_buff) ∧
    0 < 1000 ∧
    finite_acquisition_v (scripted ERROR_CODE_TIMEOUT) 1 1000 scenario_A
      = .ok (scenario_A_out.1, scenario_A_out.2) ∧
    scenario_A_out.1.length = 2 ∧
    last_num_samps scenario_A_out.2 = 1000 ∧
    (∀ v ∈ scenario_A_out.1, v.length = 1000) := by
  obtain ⟨fuel, samps, s', _, h2, h3, _, _, h6⟩ :=
    finite_acquisition_v_equal_lengths (scripted ERROR_CODE_TIMEOUT) scripted_drains
      (scripted_count_le ERROR_CODE_TIMEOUT) 1000 (by decide) scenario_A
  have hrun : finite_acquisition_v (scripted ERROR_CODE_TIMEOUT) 1 1000 scenario_A
      = .ok (scenario_A_out.1, scenario_A_out.2) := rfl
  have heq := h6 1 _ hrun
  have e1 : scenario_A_out.1 = samps := congrArg Prod.fst heq
  have e2 : scenario_A_out.2 = s' := congrArg Prod.snd heq
  have hl : last_num_samps scenario_A_out.2 = 1000 := rfl
  refine ⟨scripted_drains, scripted_count_le ERROR_CODE_TIMEOUT, by decide, hrun, ?_, hl, ?_⟩
  · rw [e1, h2]; rfl
  · intro v hv
    rw [e1] at hv
    rw [h3 v hv, ← e2, hl]

/-- The state in which `finite_acquisition_v` runs `acquire`, compared with
the entry state: no tag was added, the tag flag is the entry flag when a
session existed and true otherwise, the pending start time is kept when a
session existed and consumed otherwise. -/
theorem finite_acquisition_v_prelude (drv : multi_usrp σ τ) (fuel : Nat)
    (s s0 s2 : usrp_source_impl σ τ)
    (h1 : s._rx_stream = true → s0 = s)
    (h2 : s._rx_stream = false →
      flush drv fuel
        (issue_stream_cmd drv (stream_cmd_t.make drv STREAM_MODE_STOP_CONTINUOUS)
          (start drv s).2) = .ok s0)
    (h3 : flush drv fuel s0 = .ok s2) :
    s2.tags = s.tags ∧ s2._tag_now = (s._tag_now || !s._rx_stream) ∧
    s2._start_time_set = (s._rx_stream && s._start_time_set) ∧
    s2._start_time = s._start_time ∧ s2._stream_now = s._stream_now ∧
    s2.channels = s.channels ∧ s2.cmds = s0.cmds := by
  obtain ⟨⟨_, c2, _, _, c5, c6, c7, _, _, _, c11⟩, ht, htn, _, _⟩ := flush_frame drv fuel s0 s2 h3
  cases hrx : s._rx_stream with
  | true =>
    have e := h1 hrx
    subst e
    simp [ht, htn, c6, c5, c7, c2, c11, hrx]
  | false =>
    obtain ⟨⟨_, d2, _, _, d5, d6, d7, _, _, _, _⟩, dt, dtn, _, _⟩ :=
      flush_frame drv fuel _ s0 (h2 hrx)
    obtain ⟨_, q2, q3, _, q5, q6, q7, _, q9, _⟩ := start_eq drv s
    rw [issue_stream_cmd_eq] at d2 d5 d6 d7 dt dtn
    simp only at d2 d5 d6 d7 dt dtn
    refine ⟨?_, ?_, ?_, ?_, ?_, ?_, c11⟩
    · rw [ht, dt, q9]
    · rw [htn, dtn, q2]; simp
    · rw [c6, d6, q3]; simp
    · rw [c5, d5, q6]
    · rw [c7, d7, q5]
    · rw [c2, d2, q7]

/-! ## C7: `finite_acquisition_v` and the tags -/

/-- C7, as stated, fails: without a session and with the tag flag clear,
`finite_acquisition_v(1000)` runs `start` and returns with the flag set. -/
theorem finite_acquisition_v_without_session_sets_flag :
    finite_acquisition_v (scripted ERROR_CODE_TIMEOUT) 1 1000 scenario_A_fresh
      = .ok (scenario_A_fresh_out.1, scenario_A_fresh_out.2) ∧
    scenario_A_fresh._rx_stream = false ∧
    scenario_A_fresh._tag_now = false ∧
    scenario_A_fresh_out.2._tag_now = true := by
  refine ⟨rfl, rfl, rfl, rfl⟩

/-- C7 (amended): on a device that drains, `finite_acquisition_v(N)` with
`N > 0` returns, with enough fuel, without having added any tag; the tag flag
on return equals the flag on entry when a session existed on entry, and is
true when none existed (the internal `start` sets it). -/
theorem finite_acquisition_v_adds_no_tag (drv : multi_usrp σ τ) (hd : Drains drv)
    (N : Nat) (_hN : 0 < N) (s : usrp_source_impl σ τ) :
    ∃ fuel samps s',
      finite_acquisition_v drv fuel N s = .ok (samps, s') ∧
      s'.tags = s.tags ∧
      (s._rx_stream = true → s'._tag_now = s._tag_now) ∧
      (s._rx_stream = false → s'._tag_now = true) ∧
      (∀ fuel2 out, finite_acquisition_v drv fuel2 N s = .ok out → out = (samps, s')) := by
  obtain ⟨fuel, s0, s2, h1, h2, h3, hfa⟩ := finite_acquisition_v_returns drv hd N s
  obtain ⟨p1, p2, _⟩ := finite_acquisition_v_prelude drv fuel s s0 s2 h1 h2 h3
  obtain ⟨_, _, _, _, _, a6, a7, _⟩ := acquire_spec drv N s._nchan s2
  refine ⟨fuel, (acquire drv N s._nchan s2).1, (acquire drv N s._nchan s2).2, hfa, ?_, ?_, ?_, ?_⟩
  · rw [a6, p1]
  · intro hrx
    rw [a7, p2, hrx]; simp
  · intro hrx
    rw [a7, p2, hrx]; simp
  · intro fuel2 out hout
    exact finite_acquisition_v_unique drv fuel fuel2 N s _ out hfa hout

/-- Scenario A as an instance of C7 (amended): two channels, a session,
`N = 1000`, 1000 samples without error; no tag, the flag as on entry. -/
theorem finite_acquisition_v_adds_no_tag_witness :
    Drains (scripted ERROR_CODE_TIMEOUT) ∧
    0 < 1000 ∧
    finite_acquisition_v (scripted ERROR_CODE_TIMEOUT) 1 1000 scenario_A
      = .ok (scenario_A_out.1, scenario_A_out.2) ∧
    scenario_A_out.2._metadata.error_code = ERROR_CODE_NONE ∧
    scenario_A_out.2.tags = scenario_A.tags ∧
    scenario_A.tags = [] ∧
    scenario_A_out.2._tag_now = scenario_A._tag_now := by
  obtain ⟨fuel, samps, s', _, h2, h3, _, h5⟩ :=
    finite_acquisition_v_adds_no_tag (scripted ERROR_CODE_TIMEOUT) scripted_drains
      1000 (by decide) scenario_A
  have hrun : finite_acquisition_v (scripted ERROR_CODE_TIMEOUT) 1 1000 scenario_A
      = .ok (scenario_A_out.1, scenario_A_out.2) := rfl
  have e2 : scenario_A_out.2 = s' := congrArg Prod.snd (h5 1 _ hrun)
  refine ⟨scripted_drains, by decide, hrun, rfl, ?_, rfl, ?_⟩
  · rw [e2, h2]
  · rw [e2, h3 rfl]

/-! ## C8: the start time of the finite command -/

/-- C8, as stated, fails: with a session and a start time of 5000 ms pending,
the command of `finite_acquisition_v(5)` carries the device time plus the
delay, 7100 ms, not the pending time, and the pending time is still pending
afterwards. -/
theorem finite_acquisition_v_ignores_pending_start_time :
    finite_acquisition_v (scripted ERROR_CODE_TIMEOUT) 1 5 pending_start
      = .ok (pending_start_out.1, pending_start_out.2) ∧
    pending_start._start_time_set = true ∧
    pending_start._start_time = 5000 ∧
    pending_start_out.2.cmds
      = [({ stream_mode := STREAM_MODE_NUM_SAMPS_AND_DONE, num_samps := 5, stream_now := false,
            time_spec := 7100 }, 0),
         ({ stream_mode := STREAM_MODE_NUM_SAMPS_AND_DONE, num_samps := 5, stream_now := false,
            time_spec := 7100 }, 1)] ∧
    pending_start_out.2._start_time_set = true := by
  refine ⟨rfl, rfl, rfl, rfl, rfl⟩

/-- C8 (amended): on a device that drains, `finite_acquisition_v(N)` returns,
with enough fuel, after sending to every channel a "stream `N` samples then
stop" command whose `stream_now` is the stored `_stream_now` and whose
`time_spec` is always the device time after the flush plus
`reasonable_delay`; it does not read the pending start time. When a session
exists the pending time stays pending and no other command is sent; when none
exists the internal `start` consumes it for its own continuous-start command,
which together with the stop command precedes the finite command. -/
theorem finite_acquisition_v_command_time (drv : multi_usrp σ τ) (hd : Drains drv)
    (N : Nat) (s : usrp_source_impl σ τ) :
    ∃ fuel s0 s2 samps s',
      (s._rx_stream = true → s0 = s) ∧
      (s._rx_stream = false → stop drv fuel (start drv s).2 = .ok (true, s0)) ∧
      flush drv fuel s0 = .ok s2 ∧
      finite_acquisition_v drv fuel N s = .ok (samps, s') ∧
      s'.cmds = s0.cmds ++ s.channels.map (fun c =>
        ({ stream_mode := STREAM_MODE_NUM_SAMPS_AND_DONE, num_samps := N,
           stream_now := s._stream_now,
           time_spec := drv.time_add (drv.get_time_now s2.dev)
             (drv.time_spec_t reasonable_delay) }, c)) ∧
      s'._start_time_set = (s._rx_stream && s._start_time_set) ∧
      s'._start_time = s._start_time ∧
      (s._rx_stream = false →
        s0.cmds = (start drv s).2.cmds ++ s.channels.map
          (fun c => (stream_cmd_t.make drv STREAM_MODE_STOP_CONTINUOUS, c))) ∧
      (∀ fuel2 out, finite_acquisition_v drv fuel2 N s = .ok out → out = (samps, s')) := by
  obtain ⟨fuel, s0, s2, h1, h2, h3, hfa⟩ := finite_acquisition_v_returns drv hd N s
  obtain ⟨_, _, p3, p4, p5, p6, p7⟩ := finite_acquisition_v_prelude drv fuel s s0 s2 h1 h2 h3
  obtain ⟨_, _, _, _, a5, _, _, a8, a9⟩ := acquire_spec drv N s._nchan s2
  refine ⟨fuel, s0, s2, (acquire drv N s._nchan s2).1, (acquire drv N s._nchan s2).2,
    h1, ?_, h3, hfa, ?_, ?_, ?_, ?_, ?_⟩
  · intro hrx
    unfold stop
    simp only [h2 hrx]
  · rw [a5, p7, p6, p5]; rfl
  · rw [a8, p3]
  · rw [a9, p4]
  · intro hrx
    have hc := (flush_frame drv fuel _ s0 (h2 hrx)).1.2.2.2.2.2.2.2.2.2.2
    rw [hc, issue_stream_cmd_eq]
    simp [(start_eq drv s).2.2.2.2.2.2.1]
  · intro fuel2 out hout
    exact finite_acquisition_v_unique drv fuel fuel2 N s _ out hfa hout

/-- A pending start time as an instance of C8 (amended): the finite command
carries 7100 ms and the pending time of 5000 ms is still pending. -/
theorem finite_acquisition_v_command_time_witness :
    Drains (scripted ERROR_CODE_TIMEOUT) ∧
    finite_acquisition_v (scripted ERROR_CODE_TIMEOUT) 1 5 pending_start
      = .ok (pending_start_out.1, pending_start_out.2) ∧
    pending_start_out.2._start_time_set = (pending_start._rx_stream
      && pending_start._start_time_set) ∧
    pending_start_out.2._start_time = pending_start._start_time ∧
    (∃ d, pending_start_out.2.cmds = pending_start.cmds ++ pending_start.channels.map (fun c =>
        ({ stream_mode := STREAM_MODE_NUM_SAMPS_AND_DONE, num_samps := 5,
           stream_now := pending_start._stream_now,
           time_spec := (scripted ERROR_CODE_TIMEOUT).time_add
             ((scripted ERROR_CODE_TIMEOUT).get_time_now d)
             ((scripted ERROR_CODE_TIMEOUT).time_spec_t reasonable_delay) }, c))) := by
  obtain ⟨fuel, s0, s2, samps, s', h1, _, _, _, h5, h6, h7, _, h9⟩ :=
    finite_acquisition_v_command_time (scripted ERROR_CODE_TIMEOUT) scripted_drains
      5 pending_start
  have hrun : finite_acquisition_v (scripted ERROR_CODE_TIMEOUT) 1 5 pending_start
      = .ok (pending_start_out.1, pending_start_out.2) := rfl
  have e2 : pending_start_out.2 = s' := congrArg Prod.snd (h9 1 _ hrun)
  have e0 : s0 = pending_start := h1 rfl
  refine ⟨scripted_drains, hrun, ?_, ?_, ⟨s2.dev, ?_⟩⟩
  · rw [e2, h6]
  · rw [e2, h7]
  · rw [e2, h5, e0]

end UsrpSource

/-! ## C11: the boundary tags of `stream_to_tagged_stream` -/

namespace StreamToTaggedStream

/-- The loop of `work` from a position `a * P + (P - 1)`: it adds the tags of
the `d` boundaries from `a` up to `limit / P` and stops at the first boundary
that is not below `limit`, provided the position counter does not wrap. -/
theorem tag_loop_spec (M P : Nat) (hP : 1 ≤ P) :
    ∀ (d fuel a limit : Nat) (b : stream_to_tagged_stream_impl),
    b.d_packet_len = P → b.d_next_tag_pos = a * P + (P - 1) → a + d = limit / P →
    d < fuel → limit + P ≤ M →
    tag_loop M fuel limit b = .ok
      { b with
          d_next_tag_pos := (limit / P) * P + (P - 1),
          tags := b.tags
            ++ (List.range' a d).map (fun j => boundary_tag b.d_tsb_key (j * P + (P - 1))) } := by
  intro d
  induction d with
  | zero =>
    intro fuel a limit b hlen hpos ha hfuel _
    obtain ⟨f, rfl⟩ : ∃ f, fuel = f + 1 := ⟨fuel - 1, by omega⟩
    have hq : limit < limit / P * P + P := Nat.lt_div_mul_add hP
    have ha2 : a = limit / P := by omega
    subst ha2
    have hnot : ¬ b.d_next_tag_pos < limit := by rw [hpos]; omega
    rw [tag_loop]
    simp only [hnot, ↓reduceIte]
    cases b
    simp only at hpos
    simp [hpos]
  | succ d ih =>
    intro fuel a limit b hlen hpos ha hfuel hM
    obtain ⟨f, rfl⟩ : ∃ f, fuel = f + 1 := ⟨fuel - 1, by omega⟩
    have hq1 : limit / P * P ≤ limit := Nat.div_mul_le_self limit P
    have hq2 : limit < limit / P * P + P := Nat.lt_div_mul_add hP
    have hle : (a + 1) * P ≤ limit / P * P := Nat.mul_le_mul_right P (by omega)
    have hsucc : (a + 1) * P = a * P + P := Nat.succ_mul a P
    have hlt : b.d_next_tag_pos < limit := by rw [hpos]; omega
    have hnext : (b.d_next_tag_pos + b.d_packet_len) % M = (a + 1) * P + (P - 1) := by
      rw [hpos, hlen, Nat.mod_eq_of_lt (by omega)]
      omega
    rw [tag_loop]
    simp only [hlt, ↓reduceIte]
    have hstep := ih f (a + 1) limit
      { b with
          tags := b.tags ++ [{ which_output := 0, abs_offset := b.d_next_tag_pos,
                               key := b.d_tsb_key, value := pmt_t.PMT_T,
                               srcid := pmt_t.PMT_F }],
          d_next_tag_pos := (b.d_next_tag_pos + b.d_packet_len) % M }
      hlen hnext (by omega) (by omega) hM
    rw [hstep]
    simp [List.range'_succ, boundary_tag, hpos]

/-- Two differences along a chain add up. -/
theorem sub_add_sub (a b c : Nat) (h1 : a ≤ b) (h2 : b ≤ c) : c - b + (b - a) = c - a := by
  omega

/-- One call of `work` from a position at the first boundary not below
`nitems_written(0)`: it returns `noutput_items`, copies the items and adds the
tags of the boundaries below the new write counter. -/
theorem tagged_work_spec (M P fuel written n : Nat) (input : List Nat)
    (b : stream_to_tagged_stream_impl) (hP : 1 ≤ P)
    (hlen : b.d_packet_len = P) (hpos : b.d_next_tag_pos = written / P * P + (P - 1))
    (hM : written + n + P ≤ M) (h64 : written + n < 2 ^ 64) (hfuel : written + n < fuel) :
    work M fuel written n input b = .ok (n, input.take (n * b.d_itemsize),
      { b with
          d_next_tag_pos := (written + n) / P * P + (P - 1),
          tags := b.tags
            ++ (List.range' (written / P) ((written + n) / P - written / P)).map
                (fun j => boundary_tag b.d_tsb_key (j * P + (P - 1))) }) := by
  have hmono : written / P ≤ (written + n) / P := Nat.div_le_div_right (Nat.le_add_right _ _)
  have hdiv : (written + n) / P ≤ written + n := Nat.div_le_self _ _
  have hloop := tag_loop_spec M P hP ((written + n) / P - written / P) fuel (written / P)
    (written + n) b hlen hpos (Nat.add_sub_of_le hmono)
    (Nat.lt_of_le_of_lt (Nat.sub_le _ _) (Nat.lt_of_le_of_lt hdiv hfuel)) hM
  unfold work
  rw [Nat.mod_eq_of_lt h64, hloop]

/-- The calls of a sequence, from a position at the first boundary not below
the write counter: the write counter grows by the number of items and the tags
added are those of the boundaries it passed. -/
theorem tagged_run_spec (M P fuel : Nat) (hP : 1 ≤ P) :
    ∀ (calls : List (Nat × List Nat)) (written : Nat) (b : stream_to_tagged_stream_impl),
    b.d_packet_len = P → b.d_next_tag_pos = written / P * P + (P - 1) →
    written + total calls + P ≤ M → written + total calls < 2 ^ 64 →
    written + total calls < fuel →
    run M fuel calls written b = .ok (written + total calls,
      { b with
          d_next_tag_pos := (written + total calls) / P * P + (P - 1),
          tags := b.tags
            ++ (List.range' (written / P) ((written + total calls) / P - written / P)).map
                (fun j => boundary_tag b.d_tsb_key (j * P + (P - 1))) }) := by
  intro calls
  induction calls with
  | nil =>
    intro written b _ hpos _ _ _
    cases b
    simp only at hpos
    simp [run, total, hpos]
  | cons call rest ih =>
    intro written b hlen hpos hM h64 hfuel
    have htot : total (call :: rest) = call.1 + total rest := by
      simp [total]
    rw [htot] at hM h64 hfuel ⊢
    have hw := tagged_work_spec M P fuel written call.1 call.2 b hP hlen hpos
      (by omega) (by omega) (by omega)
    have hm1 : written / P ≤ (written + call.1) / P :=
      Nat.div_le_div_right (Nat.le_add_right _ _)
    have hm2 : (written + call.1) / P ≤ (written + call.1 + total rest) / P :=
      Nat.div_le_div_right (Nat.le_add_right _ _)
    rw [run, hw]
    simp only
    rw [Nat.mod_eq_of_lt (by omega)]
    have hrest := ih (written + call.1)
      { b with
          d_next_tag_pos := (written + call.1) / P * P + (P - 1),
          tags := b.tags
            ++ (List.range' (written / P) ((written + call.1) / P - written / P)).map
                (fun j => boundary_tag b.d_tsb_key (j * P + (P - 1))) }
      hlen rfl (by omega) (by omega) (by omega)
    rw [hrest]
    have happ := List.range'_append_1 (written / P) ((written + call.1) / P - written / P)
      ((written + call.1 + total rest) / P - (written + call.1) / P)
    have e1 : written / P + ((written + call.1) / P - written / P) = (written + call.1) / P :=
      Nat.add_sub_of_le hm1
    have e2 : (written + call.1 + total rest) / P - (written + call.1) / P
        + ((written + call.1) / P - written / P)
        = (written + call.1 + total rest) / P - written / P :=
      sub_add_sub _ _ _ hm1 hm2
    rw [e1, e2] at happ
    simp only [Nat.add_assoc] at happ
    simp only [List.append_assoc, ← List.map_append, Nat.add_assoc, happ]

/-- The offsets of `boundary_offsets P T` are the numbers `j * P + (P - 1)`
below `T`. -/
theorem mem_boundary_offsets (P T : Nat) (hP : 1 ≤ P) (o : Nat) :
    o ∈ boundary_offsets P T ↔ ∃ j, o = j * P + (P - 1) ∧ o < T := by
  have hq1 : T / P * P ≤ T := Nat.div_mul_le_self T P
  simp only [boundary_offsets, List.mem_map, List.mem_range]
  constructor
  · rintro ⟨j, hj, rfl⟩
    refine ⟨j, rfl, ?_⟩
    have hle : (j + 1) * P ≤ T / P * P := Nat.mul_le_mul_right P hj
    have hsucc : (j + 1) * P = j * P + P := Nat.succ_mul j P
    omega
  · rintro ⟨j, rfl, hlt⟩
    refine ⟨j, ?_, rfl⟩
    have hsucc : (j + 1) * P = j * P + P := Nat.succ_mul j P
    have hle : (j + 1) * P ≤ T := by omega
    exact (Nat.le_div_iff_mul_le hP).2 hle

/-- Consecutive offsets of `boundary_offsets P T` are `P` apart. -/
theorem boundary_offsets_chain (P T : Nat) :
    (boundary_offsets P T).Chain' (fun x y => y = x + P) := by
  unfold boundary_offsets
  rw [List.chain'_map]
  cases T / P with
  | zero => simp
  | succ q =>
    rw [List.chain'_range_succ]
    intro m _
    rw [Nat.succ_mul]
    omega

/-- The offsets of `boundary_offsets P T` increase strictly. -/
theorem boundary_offsets_sorted (P T : Nat) (hP : 1 ≤ P) :
    (boundary_offsets P T).Sorted (fun x y => x < y) := by
  have hchain : (boundary_offsets P T).Chain' (fun x y => x < y) :=
    (boundary_offsets_chain P T).imp (fun h => by omega)
  exact List.chain'_iff_pairwise.1 hchain

/-- The constructor with a packet length from 1 up to the range of an
`unsigned`: the position counter starts at `packet_len - 1`. -/
theorem make_ok (M itemsize vlen P : Nat) (key : String) (hP : 1 ≤ P) (hP32 : P < 2 ^ 32)
    (hM : P ≤ M) :
    make M itemsize vlen P key = .ok
      { d_itemsize := (itemsize * vlen) % 2 ^ 64, d_packet_len := P, d_tsb_key := key,
        d_next_tag_pos := P - 1, tags := [] } := by
  have h1 : ¬ P < 1 := by omega
  have h2 : (P + 2 ^ 32 - 1) % 2 ^ 32 = P - 1 := by
    norm_num at hP32 ⊢
    omega
  unfold make
  simp only [h1, ↓reduceIte, h2]
  rw [Nat.mod_eq_of_lt (show P - 1 < M by omega)]

/-- C11: for a packet length `P ≥ 1` (an `unsigned`) the constructor succeeds,
and for every sequence of `work` calls with item counts `n1..nk`, the write
counter being the sum of the counts of the earlier calls and no counter
wrapping (`n1+...+nk < 2^64`, `n1+...+nk + P` within the range of
`d_next_tag_pos`), the run returns and the tags added over the whole sequence
are exactly the boundary tags at the offsets `j*P + (P-1)` below
`n1+...+nk`, each once and in increasing order; consecutive tags are `P`
apart, their number is `(n1+...+nk) / P`, and every other split of the same
number of items gives the same tags. The constructor with `P < 1` fails with
`invalid_argument`. -/
theorem stream_to_tagged_stream_boundary_tags (M itemsize vlen P : Nat) (key : String)
    (calls : List (Nat × List Nat)) (fuel : Nat)
    (hP : 1 ≤ P) (hP32 : P < 2 ^ 32) (hM : total calls + P ≤ M)
    (h64 : total calls < 2 ^ 64) (hfuel : total calls < fuel) :
    (∃ b0 b, make M itemsize vlen P key = .ok b0 ∧ b0.tags = [] ∧
      run M fuel calls 0 b0 = .ok (total calls, b) ∧
      b.tags = (boundary_offsets P (total calls)).map (boundary_tag key) ∧
      (∀ calls2, total calls2 = total calls →
        ∃ b2, run M fuel calls2 0 b0 = .ok (total calls, b2) ∧ b2.tags = b.tags)) ∧
    (∀ o, o ∈ boundary_offsets P (total calls) ↔ ∃ j, o = j * P + (P - 1) ∧ o < total calls) ∧
    (boundary_offsets P (total calls)).Sorted (fun x y => x < y) ∧
    (boundary_offsets P (total calls)).Chain' (fun x y => y = x + P) ∧
    (boundary_offsets P (total calls)).length = total calls / P ∧
    (∀ P0 itemsize0 vlen0 key0, P0 < 1 →
      make M itemsize0 vlen0 P0 key0 = .error fault.invalid_argument) := by
  have hmk := make_ok M itemsize vlen P key hP hP32 (by omega)
  have hrun : ∀ calls2, total calls2 = total calls →
      run M fuel calls2 0
        { d_itemsize := (itemsize * vlen) % 2 ^ 64, d_packet_len := P, d_tsb_key := key,
          d_next_tag_pos := P - 1, tags := [] }
      = .ok (total calls,
        { d_itemsize := (itemsize * vlen) % 2 ^ 64, d_packet_len := P, d_tsb_key := key,
          d_next_tag_pos := total calls / P * P + (P - 1),
          tags := (boundary_offsets P (total calls)).map (boundary_tag key) }) := by
    intro calls2 h2
    have h := tagged_run_spec M P fuel hP calls2 0
      { d_itemsize := (itemsize * vlen) % 2 ^ 64, d_packet_len := P, d_tsb_key := key,
        d_next_tag_pos := P - 1, tags := [] }
      rfl (by simp) (by omega) (by omega) (by omega)
    rw [h, h2]
    simp [boundary_offsets, List.range_eq_range']
  refine ⟨⟨_, _, hmk, rfl, hrun calls rfl, rfl, fun calls2 h2 => ⟨_, hrun calls2 h2, rfl⟩⟩,
    mem_boundary_offsets P (total calls) hP, boundary_offsets_sorted P (total calls) hP,
    boundary_offsets_chain P (total calls), by simp [boundary_offsets], ?_⟩
  intro P0 itemsize0 vlen0 key0 hP0
  simp [make, hP0]

/-- Three calls of 3, 5 and 2 items with packet length 4, as an instance of
C11: ten items, the tags sit at offsets 3 and 7. -/
theorem stream_to_tagged_stream_boundary_tags_witness :
    1 ≤ 4 ∧ 4 < 2 ^ 32 ∧ total three_calls + 4 ≤ 2 ^ 64 ∧ total three_calls < 2 ^ 64 ∧
    total three_calls < 11 ∧
    total three_calls = 10 ∧
    (∃ b0 b, make (2 ^ 64) 1 1 4 "packet_len" = .ok b0 ∧
      run (2 ^ 64) 11 three_calls 0 b0 = .ok (10, b) ∧
      b.tags.map (fun t => t.abs_offset) = [3, 7]) ∧
    boundary_offsets 4 (total three_calls) = [3, 7] := by
  have ht : total three_calls = 10 := by decide
  obtain ⟨⟨b0, b, h1, _, h3, h4, _⟩, _⟩ :=
    stream_to_tagged_stream_boundary_tags (2 ^ 64) 1 1 4 "packet_len" three_calls 11
      (by decide) (by norm_num) (by rw [ht]; norm_num) (by rw [ht]; norm_num)
      (by rw [ht]; norm_num)
  have hb : boundary_offsets 4 (total three_calls) = [3, 7] := by decide
  refine ⟨by decide, by norm_num, by rw [ht]; norm_num, by rw [ht]; norm_num,
    by rw [ht]; norm_num, ht, ⟨b0, b, h1, ?_, ?_⟩, hb⟩
  · rw [h3, ht]
  · rw [h4, hb]
    rfl

end StreamToTaggedStream
